import Mathlib

/-!
# EMG filter pipeline (`New_EMG_Filters/EMGFilters.cpp`)

A shallow embedding of the three filter classes of the repository and of the
pipeline controller that owns them, followed by theorems about them.

* C++ `float` values are modelled by exact rationals `ℚ`; every statement below
  is a statement of exact arithmetic.  Division is Lean's total division on `ℚ`,
  which is the true quotient whenever the divisor is not zero.
* A C++ array `float a[n]` is a function `Fin n → ℚ`; the element write
  `a[i] = v` is `Function.update a i v`.
* A member function that mutates its object takes the object and returns the new
  object; `update` returns the pair (returned value, new object).
-/

namespace EMG

/-! ## Constants of the missing header -/

/-- Modelled from the spec: the header `EMGFilters.h` is not among the sources; the
spec names the supported sample-rate classes 500, 1000 and 2000 Hz. -/
def SAMPLE_FREQ_500HZ : Int := 500

/-- Modelled from the spec: the enumerator of the 1000 Hz sample-rate class of the
missing header `EMGFilters.h`. -/
def SAMPLE_FREQ_1000HZ : Int := 1000

/-- Modelled from the spec: the enumerator of the 2000 Hz sample-rate class of the
missing header `EMGFilters.h`. -/
def SAMPLE_FREQ_2000HZ : Int := 2000

/-- Modelled from the spec: the enumerator of the 50 Hz mains class of the missing
header `EMGFilters.h`. -/
def NOTCH_FREQ_50HZ : Int := 50

/-- Modelled from the spec: the enumerator of the 60 Hz mains class of the missing
header `EMGFilters.h`. -/
def NOTCH_FREQ_60HZ : Int := 60

/-- Modelled from the spec: the enumeration `FILTER_TYPE` of the missing header
`EMGFilters.h`; the spec gives the filter kinds low-pass and high-pass. -/
inductive FILTER_TYPE where
  | FILTER_TYPE_LOWPASS : FILTER_TYPE
  | FILTER_TYPE_HIGHPASS : FILTER_TYPE
deriving DecidableEq, Repr

/-! ## Coefficient tables (lines 37-80) -/

/-- The table `lpf_numerator_coef[3][3]`. -/
def lpf_numerator_coef : Fin 3 → Fin 3 → ℚ :=
  ![![0.3913, 0.7827, 0.3913],
    ![0.1311, 0.2622, 0.1311],
    ![0.2483, 0.4967, 0.2483]]

/-- The table `lpf_denominator_coef[3][3]`. -/
def lpf_denominator_coef : Fin 3 → Fin 3 → ℚ :=
  ![![1.0000, 0.3695, 0.1958],
    ![1.0000, -0.7478, 0.2722],
    ![1.0000, -0.1842, 0.1776]]

/-- The table `hpf_numerator_coef[3][3]`. -/
def hpf_numerator_coef : Fin 3 → Fin 3 → ℚ :=
  ![![0.8371, -1.6742, 0.8371],
    ![0.9150, -1.8299, 0.9150],
    ![0.9565, -1.9131, 0.9565]]

/-- The table `hpf_denominator_coef[3][3]`. -/
def hpf_denominator_coef : Fin 3 → Fin 3 → ℚ :=
  ![![1.0000, -1.6475, 0.7009],
    ![1.0000, -1.8227, 0.8372],
    ![1.0000, -1.9112, 0.9150]]

/-- The table `ahf_numerator_coef_50Hz[3][6]`. -/
def ahf_numerator_coef_50Hz : Fin 3 → Fin 6 → ℚ :=
  ![![0.9522, -1.5407, 0.9522, 0.8158, -0.8045, 0.0855],
    ![0.5869, -1.1146, 0.5869, 1.0499, -2.0000, 1.0499],
    ![0.9969, -1.9692, 0.9969, 0.9969, -1.9692, 0.9969]]

/-- The table `ahf_denominator_coef_50Hz[3][6]`. -/
def ahf_denominator_coef_50Hz : Fin 3 → Fin 6 → ℚ :=
  ![![1.0000, -1.5395, 0.9056, 1.0000, -1.1187, 0.3129],
    ![1.0000, -1.8844, 0.9893, 1.0000, -1.8991, 0.9892],
    ![1.0000, -1.9692, 0.9937, 1.0000, -1.9692, 0.9937]]

/-- The table `ahf_output_gain_coef_50Hz[3]`. -/
def ahf_output_gain_coef_50Hz : Fin 3 → ℚ := ![1.3422, 1.4399, 1.0000]

/-- The table `ahf_numerator_coef_60Hz[3][6]`. -/
def ahf_numerator_coef_60Hz : Fin 3 → Fin 6 → ℚ :=
  ![![0.9528, -1.3891, 0.9528, 0.8272, -0.7225, 0.0264],
    ![0.5824, -1.0810, 0.5824, 1.0736, -2.0000, 1.0736],
    ![0.9969, -1.9584, 0.9969, 0.9969, -1.9584, 0.9969]]

/-- The table `ahf_denominator_coef_60Hz[3][6]`. -/
def ahf_denominator_coef_60Hz : Fin 3 → Fin 6 → ℚ :=
  ![![1.0000, -1.3880, 0.9066, 1.0000, -0.9739, 0.2371],
    ![1.0000, -1.8407, 0.9894, 1.0000, -1.8584, 0.9891],
    ![1.0000, -1.9584, 0.9937, 1.0000, -1.9584, 0.9937]]

/-- The table `ahf_output_gain_coef_60Hz[3]`. -/
def ahf_output_gain_coef_60Hz : Fin 3 → ℚ := ![1.3430, 1.4206, 1.0000]

/-! ## Frequency to table row -/

/-- The local `idx` of `FILTER_2nd::init` and `FILTER_4th::init` (lines 88-91 and
126-129): `none` stands for the initial value `-1`, `some i` for the row `i`. -/
def freqIdx (sampleFreq : Int) : Option (Fin 3) :=
  if sampleFreq = SAMPLE_FREQ_500HZ then some 0
  else if sampleFreq = SAMPLE_FREQ_1000HZ then some 1
  else if sampleFreq = SAMPLE_FREQ_2000HZ then some 2
  else none

/-! ## Second-order filter (lines 83-117) -/

/-- The data members of class `FILTER_2nd`: `states[2]`, `num[3]`, `den[3]`. -/
@[ext]
structure FILTER_2nd where
  states : Fin 2 → ℚ
  num : Fin 3 → ℚ
  den : Fin 3 → ℚ

/-- The function `FILTER_2nd::init` (lines 83-106).  The two loops over `i < 3` copy a
whole table row into `num` and `den`. -/
def FILTER_2nd.init (f : FILTER_2nd) (ftype : FILTER_TYPE) (sampleFreq : Int) : FILTER_2nd :=
  let states0 := Function.update f.states 0 0
  let states1 := Function.update states0 1 0
  match freqIdx sampleFreq with
  | none => { f with states := states1 }
  | some idx =>
    match ftype with
    | FILTER_TYPE.FILTER_TYPE_LOWPASS =>
      { states := states1
        num := fun i => lpf_numerator_coef idx i
        den := fun i => lpf_denominator_coef idx i }
    | FILTER_TYPE.FILTER_TYPE_HIGHPASS =>
      { states := states1
        num := fun i => hpf_numerator_coef idx i
        den := fun i => hpf_denominator_coef idx i }

/-- The function `FILTER_2nd::update` (lines 108-117): returned value and new object. -/
def FILTER_2nd.update (f : FILTER_2nd) (input : ℚ) : ℚ × FILTER_2nd :=
  let tmp := (input - f.den 1 * f.states 0 - f.den 2 * f.states 1) / f.den 0
  let output := f.num 0 * tmp + f.num 1 * f.states 0 + f.num 2 * f.states 1
  let states1 := Function.update f.states 1 (f.states 0)
  let states2 := Function.update states1 0 tmp
  (output, { f with states := states2 })

/-! ## Fourth-order filter (lines 119-167) -/

/-- The data members of class `FILTER_4th`: `states[4]`, `num[6]`, `den[6]`, `gain`. -/
@[ext]
structure FILTER_4th where
  states : Fin 4 → ℚ
  num : Fin 6 → ℚ
  den : Fin 6 → ℚ
  gain : ℚ

/-- The function `FILTER_4th::init` (lines 119-147).  The first loop zeroes the four
states, the loops over `i < 6` copy a whole table row into `num` and `den`. -/
def FILTER_4th.init (f : FILTER_4th) (sampleFreq humFreq : Int) : FILTER_4th :=
  let f0 : FILTER_4th := { f with gain := 0, states := fun _ => 0 }
  match freqIdx sampleFreq with
  | none => f0
  | some idx =>
    if humFreq = NOTCH_FREQ_50HZ then
      { states := f0.states
        num := fun i => ahf_numerator_coef_50Hz idx i
        den := fun i => ahf_denominator_coef_50Hz idx i
        gain := ahf_output_gain_coef_50Hz idx }
    else if humFreq = NOTCH_FREQ_60HZ then
      { states := f0.states
        num := fun i => ahf_numerator_coef_60Hz idx i
        den := fun i => ahf_denominator_coef_60Hz idx i
        gain := ahf_output_gain_coef_60Hz idx }
    else f0

/-- The function `FILTER_4th::update` (lines 149-167): returned value and new object.
The four state writes happen in the order of the source, each later read seeing the
earlier writes. -/
def FILTER_4th.update (f : FILTER_4th) (input : ℚ) : ℚ × FILTER_4th :=
  -- Stage 1 (first biquad)
  let stageOut1 := f.num 0 * input + f.states 0
  let st1 := Function.update f.states 0 ((f.num 1 * input + f.states 1) - f.den 1 * stageOut1)
  let st2 := Function.update st1 1 (f.num 2 * input - f.den 2 * stageOut1)
  -- Stage 2 (second biquad)
  let stageIn := stageOut1
  let stageOut2 := f.num 3 * stageOut1 + st2 2
  let st3 := Function.update st2 2 ((f.num 4 * stageIn + st2 3) - f.den 4 * stageOut2)
  let st4 := Function.update st3 3 (f.num 5 * stageIn - f.den 5 * stageOut2)
  let output := f.gain * stageOut2
  (output, { f with states := st4 })

/-! ## Pipeline controller (lines 169-221) -/

/-- The data members of class `EMGFilters`. -/
@[ext]
structure EMGFilters where
  m_sampleFreq : Int
  m_notchFreq : Int
  m_bypassEnabled : Bool
  m_notchFilterEnabled : Bool
  m_lowpassFilterEnabled : Bool
  m_highpassFilterEnabled : Bool
  LPF : FILTER_2nd
  HPF : FILTER_2nd
  AHF : FILTER_4th

/-- The function `EMGFilters::init` (lines 169-194). -/
def EMGFilters.init (p : EMGFilters) (sampleFreq notchFreq : Int)
    (enableNotchFilter enableLowpassFilter enableHighpassFilter : Bool) : EMGFilters :=
  let m_sampleFreq := sampleFreq
  let m_notchFreq := notchFreq
  let m_bypassEnabled : Bool :=
    if ((sampleFreq = SAMPLE_FREQ_500HZ) ∨
        (sampleFreq = SAMPLE_FREQ_1000HZ) ∨
        (sampleFreq = SAMPLE_FREQ_2000HZ)) ∧
       ((notchFreq = NOTCH_FREQ_50HZ) ∨ (notchFreq = NOTCH_FREQ_60HZ)) then false
    else true
  { m_sampleFreq := m_sampleFreq
    m_notchFreq := m_notchFreq
    m_bypassEnabled := m_bypassEnabled
    LPF := p.LPF.init FILTER_TYPE.FILTER_TYPE_LOWPASS m_sampleFreq
    HPF := p.HPF.init FILTER_TYPE.FILTER_TYPE_HIGHPASS m_sampleFreq
    AHF := p.AHF.init m_sampleFreq m_notchFreq
    m_notchFilterEnabled := enableNotchFilter
    m_lowpassFilterEnabled := enableLowpassFilter
    m_highpassFilterEnabled := enableHighpassFilter }

/-- The function `EMGFilters::update` (lines 196-221): returned value and new object. -/
def EMGFilters.update (p : EMGFilters) (inputValue : ℚ) : ℚ × EMGFilters :=
  if p.m_bypassEnabled then (inputValue, p)
  else
    let output := inputValue
    -- 1. notch filter
    let r1 : ℚ × EMGFilters :=
      if p.m_notchFilterEnabled then
        ((p.AHF.update output).1, { p with AHF := (p.AHF.update output).2 })
      else (output, p)
    -- 2. low-pass filter
    let r2 : ℚ × EMGFilters :=
      if r1.2.m_lowpassFilterEnabled then
        ((r1.2.LPF.update r1.1).1, { r1.2 with LPF := (r1.2.LPF.update r1.1).2 })
      else r1
    -- 3. high-pass filter
    let r3 : ℚ × EMGFilters :=
      if r2.2.m_highpassFilterEnabled then
        ((r2.2.HPF.update r2.1).1, { r2.2 with HPF := (r2.2.HPF.update r2.1).2 })
      else r2
    r3

/-! ## Running a filter over an input sequence -/

/-- Call `step` once per sample, in order, threading the object through the calls:
the list of returned values and the final object. -/
def run {σ : Type} (step : σ → ℚ → ℚ × σ) : σ → List ℚ → List ℚ × σ
  | s, [] => ([], s)
  | s, x :: xs => ((step s x).1 :: (run step (step s x).2 xs).1, (run step (step s x).2 xs).2)

/-- The configuration test of `EMGFilters::init`, as the spec words it: the sample
rate is one of 500, 1000, 2000 Hz and the notch frequency one of 50, 60 Hz. -/
def Supported (sampleFreq notchFreq : Int) : Prop :=
  (sampleFreq = 500 ∨ sampleFreq = 1000 ∨ sampleFreq = 2000) ∧ (notchFreq = 50 ∨ notchFreq = 60)

instance (sampleFreq notchFreq : Int) : Decidable (Supported sampleFreq notchFreq) := by
  unfold Supported; infer_instance

/-- A pipeline object whose every member is zero or false, used as a concrete object
to start from. -/
def zeroPipeline : EMGFilters :=
  { m_sampleFreq := 0
    m_notchFreq := 0
    m_bypassEnabled := false
    m_notchFilterEnabled := false
    m_lowpassFilterEnabled := false
    m_highpassFilterEnabled := false
    LPF := { states := fun _ => 0, num := fun _ => 0, den := fun _ => 0 }
    HPF := { states := fun _ => 0, num := fun _ => 0, den := fun _ => 0 }
    AHF := { states := fun _ => 0, num := fun _ => 0, den := fun _ => 0, gain := 0 } }

/-- One stage of the pipeline over a whole input sequence: the filter is run when the
stage is enabled and is left alone, the samples passing through, when it is not. -/
def stageRun {σ : Type} (enabled : Bool) (step : σ → ℚ → ℚ × σ) (f : σ) (xs : List ℚ) :
    List ℚ × σ :=
  if enabled then run step f xs else (xs, f)

/-- The manual composition named by C3: one sample goes through a notch filter object,
its result through a low-pass filter object, and that result through a high-pass filter
object. -/
def manualCascade (s : FILTER_4th × FILTER_2nd × FILTER_2nd) (x : ℚ) :
    ℚ × (FILTER_4th × FILTER_2nd × FILTER_2nd) :=
  ((s.2.2.update (s.2.1.update (s.1.update x).1).1).1,
    ((s.1.update x).2, (s.2.1.update (s.1.update x).1).2,
      (s.2.2.update (s.2.1.update (s.1.update x).1).1).2))

/-- A second-order filter object with non-trivial members, used as a concrete input. -/
def sampleBiquad : FILTER_2nd :=
  { states := ![1, 2], num := ![3, 4, 5], den := ![2, 1, 1] }

/-- A fourth-order filter object with non-trivial members, used as a concrete input. -/
def sampleNotch : FILTER_4th :=
  { states := ![1, 2, 3, 4], num := ![1, 2, 3, 4, 5, 6], den := ![1, 3, 5, 1, 7, 9], gain := 2 }

/-- One transposed-form stage, as C16 words it: `out = b0*x + s0`,
`s0 <- b1*x + s1 - a1*out`, `s1 <- b2*x - a2*out`; the state is the pair `(s0, s1)`. -/
def transposedStage (b0 b1 b2 a1 a2 : ℚ) (s : ℚ × ℚ) (x : ℚ) : ℚ × (ℚ × ℚ) :=
  (b0 * x + s.1, (b1 * x + s.2 - a1 * (b0 * x + s.1), b2 * x - a2 * (b0 * x + s.1)))

/-- The `FILTER_2nd` object with `num = (b0, b1, b2)`, `den = (1, a1, a2)` and zero delay
states. -/
def biquadOf (b0 b1 b2 a1 a2 : ℚ) : FILTER_2nd :=
  { states := ![0, 0], num := ![b0, b1, b2], den := ![1, a1, a2] }

/-- The sample-by-sample combination `a*u + b*v` of two input (or output) sequences. -/
def lincomb (a b : ℚ) (u v : List ℚ) : List ℚ :=
  List.zipWith (fun x y => a * x + b * y) u v

/-- The object after `n` calls of `step` on the samples `u 0, ..., u (n-1)` of an
infinite input sequence. -/
def stateAt {σ : Type} (step : σ → ℚ → ℚ × σ) (s : σ) (u : ℕ → ℚ) : ℕ → σ
  | 0 => s
  | n + 1 => (step (stateAt step s u n) (u n)).2

/-- The value returned by call number `n` (counted from 0) of `step` on the infinite
input sequence `u`. -/
def outAt {σ : Type} (step : σ → ℚ → ℚ × σ) (s : σ) (u : ℕ → ℚ) (n : ℕ) : ℚ :=
  (step (stateAt step s u n) (u n)).1

/-- The sequence `f` converges to 0. -/
def TendsToZero (f : ℕ → ℚ) : Prop :=
  ∀ ε : ℚ, 0 < ε → ∃ N : ℕ, ∀ n, N ≤ n → |f n| < ε

/-- The stability triangle of the polynomial `z^2 + a1*z + a2`: both roots lie inside the
unit circle exactly when `a2 < 1`, `a1 < 1 + a2` and `-a1 < 1 + a2`. -/
def Stable (a1 a2 : ℚ) : Prop :=
  a2 < 1 ∧ a1 < 1 + a2 ∧ -a1 < 1 + a2

/-- The quadratic form `p*x^2 + 2*q*x*y + r*y^2`. -/
def quadForm (p q r x y : ℚ) : ℚ :=
  p * x ^ 2 + 2 * q * x * y + r * y ^ 2

/-- The filter object of one pipeline stage after `n` samples of the infinite input
sequence `u`: advanced when the stage is enabled, left alone when it is not. -/
def stageStateAt {σ : Type} (enabled : Bool) (step : σ → ℚ → ℚ × σ) (f : σ) (u : ℕ → ℚ)
    (n : ℕ) : σ :=
  if enabled then stateAt step f u n else f

/-- The output sequence of one pipeline stage on the infinite input sequence `u`: the
filter's outputs when the stage is enabled, `u` itself when it is not. -/
def stageOutAt {σ : Type} (enabled : Bool) (step : σ → ℚ → ℚ × σ) (f : σ) (u : ℕ → ℚ) :
    ℕ → ℚ :=
  if enabled then outAt step f u else u

/-! ## Helper lemmas -/

theorem init_bypass_false_iff (p : EMGFilters) (sf nf : Int) (a b c : Bool) :
    (p.init sf nf a b c).m_bypassEnabled = false ↔ Supported sf nf := by
  simp only [EMGFilters.init, Supported, SAMPLE_FREQ_500HZ, SAMPLE_FREQ_1000HZ,
    SAMPLE_FREQ_2000HZ, NOTCH_FREQ_50HZ, NOTCH_FREQ_60HZ]
  split_ifs with h
  · simp [h]
  · simp [h]

theorem init_bypass_true_iff (p : EMGFilters) (sf nf : Int) (a b c : Bool) :
    (p.init sf nf a b c).m_bypassEnabled = true ↔ ¬ Supported sf nf := by
  rw [← init_bypass_false_iff p sf nf a b c]
  cases (p.init sf nf a b c).m_bypassEnabled <;> simp

theorem update_of_bypass (p : EMGFilters) (x : ℚ) (h : p.m_bypassEnabled = true) :
    p.update x = (x, p) := by
  simp [EMGFilters.update, h]

theorem run_of_bypass (p : EMGFilters) (h : p.m_bypassEnabled = true) (xs : List ℚ) :
    run EMGFilters.update p xs = (xs, p) := by
  induction xs with
  | nil => rfl
  | cons x xs ih => simp [run, update_of_bypass p x h, ih]

theorem freqIdx_isSome_iff (sf : Int) :
    (freqIdx sf).isSome = true ↔ (sf = 500 ∨ sf = 1000 ∨ sf = 2000) := by
  simp only [freqIdx, SAMPLE_FREQ_500HZ, SAMPLE_FREQ_1000HZ, SAMPLE_FREQ_2000HZ]
  split_ifs <;> simp_all

theorem freqIdx_eq_none_iff (sf : Int) :
    freqIdx sf = none ↔ ¬ (sf = 500 ∨ sf = 1000 ∨ sf = 2000) := by
  rw [← freqIdx_isSome_iff]
  cases freqIdx sf <;> simp

/-- With a recognised sample rate `FILTER_2nd.init` overwrites every member. -/
theorem FILTER_2nd_init_indep (f g : FILTER_2nd) (t : FILTER_TYPE) (sf : Int)
    (h : sf = 500 ∨ sf = 1000 ∨ sf = 2000) : f.init t sf = g.init t sf := by
  have hs := (freqIdx_isSome_iff sf).2 h
  obtain ⟨idx, hidx⟩ := Option.isSome_iff_exists.1 hs
  have hz : ∀ k : FILTER_2nd,
      Function.update (Function.update k.states 0 0) 1 0 = fun _ => 0 := by
    intro k; funext i; fin_cases i <;> simp
  cases t <;> simp [FILTER_2nd.init, hidx, hz]

/-- With a supported pair `FILTER_4th.init` overwrites every member. -/
theorem FILTER_4th_init_indep (f g : FILTER_4th) (sf nf : Int) (h : Supported sf nf) :
    f.init sf nf = g.init sf nf := by
  have hs := (freqIdx_isSome_iff sf).2 h.1
  obtain ⟨idx, hidx⟩ := Option.isSome_iff_exists.1 hs
  rcases h.2 with h50 | h60
  · simp [FILTER_4th.init, hidx, h50, NOTCH_FREQ_50HZ]
  · simp [FILTER_4th.init, hidx, h60, NOTCH_FREQ_50HZ, NOTCH_FREQ_60HZ]

/-- With a supported pair `EMGFilters.init` overwrites every member. -/
theorem EMGFilters_init_indep (p q : EMGFilters) (sf nf : Int) (a b c : Bool)
    (h : Supported sf nf) : p.init sf nf a b c = q.init sf nf a b c := by
  simp only [EMGFilters.init]
  rw [FILTER_2nd_init_indep p.LPF q.LPF _ sf h.1, FILTER_2nd_init_indep p.HPF q.HPF _ sf h.1,
    FILTER_4th_init_indep p.AHF q.AHF sf nf h]

theorem FILTER_2nd_init_states (f : FILTER_2nd) (t : FILTER_TYPE) (sf : Int) :
    (f.init t sf).states = fun _ => 0 := by
  have hz : Function.update (Function.update f.states 0 0) 1 0 = fun _ => 0 := by
    funext i; fin_cases i <;> simp
  unfold FILTER_2nd.init
  cases freqIdx sf <;> cases t <;> simp [hz]

theorem FILTER_4th_init_states (f : FILTER_4th) (sf nf : Int) :
    (f.init sf nf).states = fun _ => 0 := by
  unfold FILTER_4th.init
  cases freqIdx sf
  · simp
  · simp only
    split_ifs <;> rfl

@[simp]
theorem init_notchFlag (p : EMGFilters) (sf nf : Int) (a b c : Bool) :
    (p.init sf nf a b c).m_notchFilterEnabled = a := rfl

@[simp]
theorem init_lowpassFlag (p : EMGFilters) (sf nf : Int) (a b c : Bool) :
    (p.init sf nf a b c).m_lowpassFilterEnabled = b := rfl

@[simp]
theorem init_highpassFlag (p : EMGFilters) (sf nf : Int) (a b c : Bool) :
    (p.init sf nf a b c).m_highpassFilterEnabled = c := rfl

@[simp]
theorem init_LPF (p : EMGFilters) (sf nf : Int) (a b c : Bool) :
    (p.init sf nf a b c).LPF = p.LPF.init FILTER_TYPE.FILTER_TYPE_LOWPASS sf := rfl

@[simp]
theorem init_HPF (p : EMGFilters) (sf nf : Int) (a b c : Bool) :
    (p.init sf nf a b c).HPF = p.HPF.init FILTER_TYPE.FILTER_TYPE_HIGHPASS sf := rfl

@[simp]
theorem init_AHF (p : EMGFilters) (sf nf : Int) (a b c : Bool) :
    (p.init sf nf a b c).AHF = p.AHF.init sf nf := rfl

/-- A pipeline that is not bypassed runs, over a whole input sequence, as its three
stages one after the other, each on the previous stage's output sequence. -/
theorem run_update_valid (xs : List ℚ) (p : EMGFilters) (hb : p.m_bypassEnabled = false) :
    run EMGFilters.update p xs =
      ((stageRun p.m_highpassFilterEnabled FILTER_2nd.update p.HPF
          (stageRun p.m_lowpassFilterEnabled FILTER_2nd.update p.LPF
            (stageRun p.m_notchFilterEnabled FILTER_4th.update p.AHF xs).1).1).1,
        { p with
          AHF := (stageRun p.m_notchFilterEnabled FILTER_4th.update p.AHF xs).2
          LPF := (stageRun p.m_lowpassFilterEnabled FILTER_2nd.update p.LPF
            (stageRun p.m_notchFilterEnabled FILTER_4th.update p.AHF xs).1).2
          HPF := (stageRun p.m_highpassFilterEnabled FILTER_2nd.update p.HPF
            (stageRun p.m_lowpassFilterEnabled FILTER_2nd.update p.LPF
              (stageRun p.m_notchFilterEnabled FILTER_4th.update p.AHF xs).1).1).2 }) := by
  induction xs generalizing p with
  | nil =>
    obtain ⟨sf, nf, bp, n, l, h, L, H, A⟩ := p
    cases n <;> cases l <;> cases h <;> simp [run, stageRun]
  | cons x xs ih =>
    obtain ⟨sf, nf, bp, n, l, h, L, H, A⟩ := p
    simp only at hb
    subst hb
    rw [run]
    cases n <;> cases l <;> cases h <;>
      (simp only [EMGFilters.update]; rw [ih _ rfl]; simp [run, stageRun])

/-- The outputs of a run after `init` are the same from any two earlier contents: with a
supported pair `init` overwrites everything, with an unsupported one the pipeline is
bypassed. -/
theorem run_init_indep (p q : EMGFilters) (sf nf : Int) (a b c : Bool) (xs : List ℚ) :
    (run EMGFilters.update (p.init sf nf a b c) xs).1 =
      (run EMGFilters.update (q.init sf nf a b c) xs).1 := by
  by_cases h : Supported sf nf
  · rw [EMGFilters_init_indep p q sf nf a b c h]
  · rw [run_of_bypass _ ((init_bypass_true_iff p sf nf a b c).2 h) xs,
      run_of_bypass _ ((init_bypass_true_iff q sf nf a b c).2 h) xs]

/-- Running the manual composition sample by sample gives the same outputs as running
the three filters one after the other over whole sequences. -/
theorem run_manualCascade (xs : List ℚ) (a : FILTER_4th) (l h : FILTER_2nd) :
    (run manualCascade (a, l, h) xs).1 =
      (run FILTER_2nd.update h
        (run FILTER_2nd.update l (run FILTER_4th.update a xs).1).1).1 := by
  induction xs generalizing a l h with
  | nil => rfl
  | cons x xs ih => simp [run, manualCascade, ih]

/-- The first `update x` after `init` with a supported pair and all stages enabled, from
the delay states `init` has zeroed. -/
theorem first_update_all_enabled (p : EMGFilters) (sf nf : Int) (x : ℚ)
    (h : Supported sf nf) :
    ((p.init sf nf true true true).update x).1 =
      (p.init sf nf true true true).HPF.num 0 *
        ((p.init sf nf true true true).LPF.num 0 *
          ((p.init sf nf true true true).AHF.gain *
            ((p.init sf nf true true true).AHF.num 3 *
              ((p.init sf nf true true true).AHF.num 0 * x)) /
            (p.init sf nf true true true).LPF.den 0) /
          (p.init sf nf true true true).HPF.den 0) := by
  have hb := (init_bypass_false_iff p sf nf true true true).2 h
  have hL := FILTER_2nd_init_states p.LPF FILTER_TYPE.FILTER_TYPE_LOWPASS sf
  have hH := FILTER_2nd_init_states p.HPF FILTER_TYPE.FILTER_TYPE_HIGHPASS sf
  have hA := FILTER_4th_init_states p.AHF sf nf
  simp only [EMGFilters.update, hb, init_notchFlag, init_lowpassFlag, init_highpassFlag,
    init_LPF, init_HPF, init_AHF, FILTER_2nd.update, FILTER_4th.update]
  simp [hL, hH, hA]

/-! ## Claims -/

/-- C1: after `EMGFilters.init` the bypass flag is false exactly when the sample rate is
one of 500, 1000, 2000 Hz and the notch frequency is one of 50, 60 Hz; it is true exactly
when at least one of the two is unsupported, and it is the same for every choice of enable
flags and every content of the object before `init`. -/
theorem C1_bypass_iff_unsupported (p q : EMGFilters) (sampleFreq notchFreq : Int)
    (en el eh en2 el2 eh2 : Bool) :
    ((p.init sampleFreq notchFreq en el eh).m_bypassEnabled = false ↔
        ((sampleFreq = 500 ∨ sampleFreq = 1000 ∨ sampleFreq = 2000) ∧
          (notchFreq = 50 ∨ notchFreq = 60))) ∧
      ((p.init sampleFreq notchFreq en el eh).m_bypassEnabled = true ↔
        (¬ (sampleFreq = 500 ∨ sampleFreq = 1000 ∨ sampleFreq = 2000) ∨
          ¬ (notchFreq = 50 ∨ notchFreq = 60))) ∧
      (p.init sampleFreq notchFreq en el eh).m_bypassEnabled =
        (q.init sampleFreq notchFreq en2 el2 eh2).m_bypassEnabled := by
  refine ⟨init_bypass_false_iff p sampleFreq notchFreq en el eh, ?_, ?_⟩
  · rw [init_bypass_true_iff]
    unfold Supported
    tauto
  · simp [EMGFilters.init]

/-- C2: after `EMGFilters.init` with an unsupported pair, whatever the enable flags, every
`update x` returns `x` and leaves the whole object (flags, coefficients, delay states)
as it was; so over any input sequence the outputs are the inputs, the object is still
the one `init` left, and every later call is again the identity. -/
theorem C2_bypass_is_identity (p : EMGFilters) (sampleFreq notchFreq : Int)
    (en el eh : Bool) (xs : List ℚ) (x : ℚ) (h : ¬ Supported sampleFreq notchFreq) :
    (p.init sampleFreq notchFreq en el eh).update x
        = (x, p.init sampleFreq notchFreq en el eh) ∧
      run EMGFilters.update (p.init sampleFreq notchFreq en el eh) xs
        = (xs, p.init sampleFreq notchFreq en el eh) ∧
      (run EMGFilters.update (p.init sampleFreq notchFreq en el eh) xs).2.update x
        = (x, p.init sampleFreq notchFreq en el eh) := by
  have hb := (init_bypass_true_iff p sampleFreq notchFreq en el eh).2 h
  refine ⟨update_of_bypass _ x hb, run_of_bypass _ hb xs, ?_⟩
  rw [run_of_bypass _ hb xs]
  exact update_of_bypass _ x hb

/-- Witness of C2 at 250 Hz / 50 Hz with all stages enabled. -/
theorem C2_bypass_is_identity_witness :
    ¬ Supported 250 50 ∧
      (zeroPipeline.init 250 50 true true true).update 7
        = (7, zeroPipeline.init 250 50 true true true) ∧
      run EMGFilters.update (zeroPipeline.init 250 50 true true true) [1, 2, 3]
        = ([1, 2, 3], zeroPipeline.init 250 50 true true true) ∧
      (run EMGFilters.update (zeroPipeline.init 250 50 true true true) [1, 2, 3]).2.update 7
        = (7, zeroPipeline.init 250 50 true true true) :=
  ⟨by decide, C2_bypass_is_identity zeroPipeline 250 50 true true true [1, 2, 3] 7 (by decide)⟩

/-- C3: for a supported pair, a pipeline initialised with all three stages enabled gives,
on every input sequence, sample by sample the outputs of the manual composition of a
standalone notch filter, a standalone low-pass filter and a standalone high-pass filter,
each initialised with the same parameters (from any earlier contents) and each consuming
the previous one's output; these are also the outputs of running the three standalone
filters one after the other over the whole sequence. -/
theorem C3_all_stages_compose (p : EMGFilters) (a : FILTER_4th) (l hp : FILTER_2nd)
    (sampleFreq notchFreq : Int) (xs : List ℚ) (h : Supported sampleFreq notchFreq) :
    (run EMGFilters.update (p.init sampleFreq notchFreq true true true) xs).1 =
        (run manualCascade
          (a.init sampleFreq notchFreq, l.init FILTER_TYPE.FILTER_TYPE_LOWPASS sampleFreq,
            hp.init FILTER_TYPE.FILTER_TYPE_HIGHPASS sampleFreq) xs).1 ∧
      (run EMGFilters.update (p.init sampleFreq notchFreq true true true) xs).1 =
        (run FILTER_2nd.update (hp.init FILTER_TYPE.FILTER_TYPE_HIGHPASS sampleFreq)
          (run FILTER_2nd.update (l.init FILTER_TYPE.FILTER_TYPE_LOWPASS sampleFreq)
            (run FILTER_4th.update (a.init sampleFreq notchFreq) xs).1).1).1 := by
  have hb := (init_bypass_false_iff p sampleFreq notchFreq true true true).2 h
  have key : (run EMGFilters.update (p.init sampleFreq notchFreq true true true) xs).1 =
      (run FILTER_2nd.update (hp.init FILTER_TYPE.FILTER_TYPE_HIGHPASS sampleFreq)
        (run FILTER_2nd.update (l.init FILTER_TYPE.FILTER_TYPE_LOWPASS sampleFreq)
          (run FILTER_4th.update (a.init sampleFreq notchFreq) xs).1).1).1 := by
    rw [run_update_valid xs _ hb]
    simp only [init_notchFlag, init_lowpassFlag, init_highpassFlag, init_LPF, init_HPF,
      init_AHF, stageRun, if_true]
    rw [FILTER_4th_init_indep p.AHF a sampleFreq notchFreq h,
      FILTER_2nd_init_indep p.LPF l _ sampleFreq h.1,
      FILTER_2nd_init_indep p.HPF hp _ sampleFreq h.1]
  exact ⟨by rw [run_manualCascade]; exact key, key⟩

/-- Witness of C3 at 1000 Hz / 60 Hz on the input sequence 1, 0, 2. -/
theorem C3_all_stages_compose_witness :
    Supported 1000 60 ∧
      ((run EMGFilters.update (zeroPipeline.init 1000 60 true true true) [1, 0, 2]).1 =
        (run manualCascade
          (zeroPipeline.AHF.init 1000 60,
            zeroPipeline.LPF.init FILTER_TYPE.FILTER_TYPE_LOWPASS 1000,
            zeroPipeline.HPF.init FILTER_TYPE.FILTER_TYPE_HIGHPASS 1000) [1, 0, 2]).1 ∧
      (run EMGFilters.update (zeroPipeline.init 1000 60 true true true) [1, 0, 2]).1 =
        (run FILTER_2nd.update (zeroPipeline.HPF.init FILTER_TYPE.FILTER_TYPE_HIGHPASS 1000)
          (run FILTER_2nd.update (zeroPipeline.LPF.init FILTER_TYPE.FILTER_TYPE_LOWPASS 1000)
            (run FILTER_4th.update (zeroPipeline.AHF.init 1000 60) [1, 0, 2]).1).1).1) :=
  ⟨by decide, C3_all_stages_compose zeroPipeline zeroPipeline.AHF zeroPipeline.LPF
    zeroPipeline.HPF 1000 60 [1, 0, 2] (by decide)⟩

/-- C4: for a supported pair and every input sequence, a pipeline initialised with only
the notch stage enabled gives the outputs of a standalone `FILTER_4th` initialised with
the same pair; with only the low-pass stage enabled, those of a standalone low-pass
`FILTER_2nd` initialised with the same sample rate; with only the high-pass stage
enabled, those of a standalone high-pass `FILTER_2nd`. -/
theorem C4_single_stage_is_its_filter (p : EMGFilters) (a : FILTER_4th) (l hp : FILTER_2nd)
    (sampleFreq notchFreq : Int) (xs : List ℚ) (h : Supported sampleFreq notchFreq) :
    (run EMGFilters.update (p.init sampleFreq notchFreq true false false) xs).1 =
        (run FILTER_4th.update (a.init sampleFreq notchFreq) xs).1 ∧
      (run EMGFilters.update (p.init sampleFreq notchFreq false true false) xs).1 =
        (run FILTER_2nd.update (l.init FILTER_TYPE.FILTER_TYPE_LOWPASS sampleFreq) xs).1 ∧
      (run EMGFilters.update (p.init sampleFreq notchFreq false false true) xs).1 =
        (run FILTER_2nd.update (hp.init FILTER_TYPE.FILTER_TYPE_HIGHPASS sampleFreq) xs).1 := by
  refine ⟨?_, ?_, ?_⟩
  · rw [run_update_valid xs _ ((init_bypass_false_iff p sampleFreq notchFreq _ _ _).2 h)]
    simp only [init_notchFlag, init_lowpassFlag, init_highpassFlag, init_AHF, stageRun,
      if_true, Bool.false_eq_true, if_false]
    rw [FILTER_4th_init_indep p.AHF a sampleFreq notchFreq h]
  · rw [run_update_valid xs _ ((init_bypass_false_iff p sampleFreq notchFreq _ _ _).2 h)]
    simp only [init_notchFlag, init_lowpassFlag, init_highpassFlag, init_LPF, stageRun,
      if_true, Bool.false_eq_true, if_false]
    rw [FILTER_2nd_init_indep p.LPF l _ sampleFreq h.1]
  · rw [run_update_valid xs _ ((init_bypass_false_iff p sampleFreq notchFreq _ _ _).2 h)]
    simp only [init_notchFlag, init_lowpassFlag, init_highpassFlag, init_HPF, stageRun,
      if_true, Bool.false_eq_true, if_false]
    rw [FILTER_2nd_init_indep p.HPF hp _ sampleFreq h.1]

/-- Witness of C4 at 500 Hz / 50 Hz on the input sequence 1, 0, 2. -/
theorem C4_single_stage_is_its_filter_witness :
    Supported 500 50 ∧
      ((run EMGFilters.update (zeroPipeline.init 500 50 true false false) [1, 0, 2]).1 =
        (run FILTER_4th.update (zeroPipeline.AHF.init 500 50) [1, 0, 2]).1 ∧
      (run EMGFilters.update (zeroPipeline.init 500 50 false true false) [1, 0, 2]).1 =
        (run FILTER_2nd.update
          (zeroPipeline.LPF.init FILTER_TYPE.FILTER_TYPE_LOWPASS 500) [1, 0, 2]).1 ∧
      (run EMGFilters.update (zeroPipeline.init 500 50 false false true) [1, 0, 2]).1 =
        (run FILTER_2nd.update
          (zeroPipeline.HPF.init FILTER_TYPE.FILTER_TYPE_HIGHPASS 500) [1, 0, 2]).1) :=
  ⟨by decide, C4_single_stage_is_its_filter zeroPipeline zeroPipeline.AHF zeroPipeline.LPF
    zeroPipeline.HPF 500 50 [1, 0, 2] (by decide)⟩

/-- C5: for a supported pair, after `EMGFilters.init` with all three enable flags false,
`update x` returns `x` after every call history: the outputs of any input sequence are
the inputs, the object is left as `init` made it, and the next call returns its
argument. -/
theorem C5_no_stage_is_identity (p : EMGFilters) (sampleFreq notchFreq : Int)
    (xs : List ℚ) (x : ℚ) (h : Supported sampleFreq notchFreq) :
    (p.init sampleFreq notchFreq false false false).m_bypassEnabled = false ∧
      run EMGFilters.update (p.init sampleFreq notchFreq false false false) xs
        = (xs, p.init sampleFreq notchFreq false false false) ∧
      ((run EMGFilters.update (p.init sampleFreq notchFreq false false false) xs).2.update x).1
        = x := by
  have hb := (init_bypass_false_iff p sampleFreq notchFreq false false false).2 h
  have hrun : ∀ ys : List ℚ,
      run EMGFilters.update (p.init sampleFreq notchFreq false false false) ys
        = (ys, p.init sampleFreq notchFreq false false false) := by
    intro ys
    rw [run_update_valid ys _ hb]
    simp only [init_notchFlag, init_lowpassFlag, init_highpassFlag, stageRun,
      Bool.false_eq_true, if_false]
    rfl
  refine ⟨hb, hrun xs, ?_⟩
  rw [hrun xs]
  have h2 := hrun [x]
  simpa [run] using congrArg (fun r => r.1) h2

/-- Witness of C5 at 2000 Hz / 60 Hz. -/
theorem C5_no_stage_is_identity_witness :
    Supported 2000 60 ∧
      ((zeroPipeline.init 2000 60 false false false).m_bypassEnabled = false ∧
      run EMGFilters.update (zeroPipeline.init 2000 60 false false false) [1, 2, 3]
        = ([1, 2, 3], zeroPipeline.init 2000 60 false false false) ∧
      ((run EMGFilters.update (zeroPipeline.init 2000 60 false false false)
        [1, 2, 3]).2.update 7).1 = 7) :=
  ⟨by decide, C5_no_stage_is_identity zeroPipeline 2000 60 [1, 2, 3] 7 (by decide)⟩

/-- C6: `FILTER_2nd.update x` on coefficients `num`, `den` with `den[0] ≠ 0` and delay
states `(s0, s1)` returns `num[0]*w + num[1]*s0 + num[2]*s1` for
`w = (x - den[1]*s0 - den[2]*s1) / den[0]`, the true quotient (`den[0]*w` is the
dividend), and leaves the delay states `(w, s0)` with `num` and `den` unchanged. -/
theorem C6_FILTER_2nd_update (f : FILTER_2nd) (x : ℚ) (h : f.den 0 ≠ 0) :
    ∃ w : ℚ, w = (x - f.den 1 * f.states 0 - f.den 2 * f.states 1) / f.den 0 ∧
      f.den 0 * w = x - f.den 1 * f.states 0 - f.den 2 * f.states 1 ∧
      (f.update x).1 = f.num 0 * w + f.num 1 * f.states 0 + f.num 2 * f.states 1 ∧
      (f.update x).2.states 0 = w ∧
      (f.update x).2.states 1 = f.states 0 ∧
      (f.update x).2.num = f.num ∧
      (f.update x).2.den = f.den := by
  refine ⟨(x - f.den 1 * f.states 0 - f.den 2 * f.states 1) / f.den 0, rfl, ?_, rfl, ?_, ?_,
    rfl, rfl⟩
  · field_simp
  · simp [FILTER_2nd.update]
  · simp [FILTER_2nd.update]

/-- Witness of C6 on `sampleBiquad` with input 7. -/
theorem C6_FILTER_2nd_update_witness :
    sampleBiquad.den 0 ≠ 0 ∧
      ∃ w : ℚ, w = (7 - sampleBiquad.den 1 * sampleBiquad.states 0
          - sampleBiquad.den 2 * sampleBiquad.states 1) / sampleBiquad.den 0 ∧
        sampleBiquad.den 0 * w = 7 - sampleBiquad.den 1 * sampleBiquad.states 0
          - sampleBiquad.den 2 * sampleBiquad.states 1 ∧
        (sampleBiquad.update 7).1 = sampleBiquad.num 0 * w
          + sampleBiquad.num 1 * sampleBiquad.states 0
          + sampleBiquad.num 2 * sampleBiquad.states 1 ∧
        (sampleBiquad.update 7).2.states 0 = w ∧
        (sampleBiquad.update 7).2.states 1 = sampleBiquad.states 0 ∧
        (sampleBiquad.update 7).2.num = sampleBiquad.num ∧
        (sampleBiquad.update 7).2.den = sampleBiquad.den :=
  ⟨by simp [sampleBiquad], C6_FILTER_2nd_update sampleBiquad 7 (by simp [sampleBiquad])⟩

/-- C7: `FILTER_4th.update x` on coefficients `num`, `den`, gain `g` and delay states
`(s0, s1, s2, s3)` returns `g*out2` with `out1 = num[0]*x + s0` and
`out2 = num[3]*out1 + s2`, leaves the delay states
`s0 = num[1]*x + s1 - den[1]*out1`, `s1 = num[2]*x - den[2]*out1`,
`s2 = num[4]*out1 + s3 - den[4]*out2`, `s3 = num[5]*out1 - den[5]*out2` (the right-hand
sides in the old states), keeps `num`, `den` and `gain`, and does not read `den[0]` or
`den[3]`: replacing them by any values changes neither the result nor the new states. -/
theorem C7_FILTER_4th_update (f : FILTER_4th) (x : ℚ) :
    ∃ out1 out2 : ℚ, out1 = f.num 0 * x + f.states 0 ∧
      out2 = f.num 3 * out1 + f.states 2 ∧
      (f.update x).1 = f.gain * out2 ∧
      (f.update x).2.states 0 = f.num 1 * x + f.states 1 - f.den 1 * out1 ∧
      (f.update x).2.states 1 = f.num 2 * x - f.den 2 * out1 ∧
      (f.update x).2.states 2 = f.num 4 * out1 + f.states 3 - f.den 4 * out2 ∧
      (f.update x).2.states 3 = f.num 5 * out1 - f.den 5 * out2 ∧
      (f.update x).2.num = f.num ∧
      (f.update x).2.den = f.den ∧
      (f.update x).2.gain = f.gain ∧
      ∀ d0 d3 : ℚ,
        (FILTER_4th.update
            { f with den := Function.update (Function.update f.den 0 d0) 3 d3 } x).1
          = (f.update x).1 ∧
        (FILTER_4th.update
            { f with den := Function.update (Function.update f.den 0 d0) 3 d3 } x).2.states
          = (f.update x).2.states := by
  refine ⟨f.num 0 * x + f.states 0, f.num 3 * (f.num 0 * x + f.states 0) + f.states 2,
    rfl, rfl, ?_, ?_, ?_, ?_, ?_, rfl, rfl, rfl, ?_⟩
  · simp [FILTER_4th.update]
  · simp [FILTER_4th.update]
  · simp [FILTER_4th.update]
  · simp [FILTER_4th.update]
  · simp [FILTER_4th.update]
  · intro d0 d3
    constructor
    · simp [FILTER_4th.update]
    · funext i
      fin_cases i <;> simp [FILTER_4th.update]

/-- C8: from whatever object a first `init` and any finite sequence of `update` calls
have produced, `EMGFilters.init` with any parameters (supported or not) leaves all eight
delay states (two low-pass, two high-pass, four notch) equal to zero, and the next
`update x` returns what the first `update x` returns on any other object initialised
with the same parameters (a freshly constructed one, whatever it holds). -/
theorem C8_reinit_resets_state (p0 fresh : EMGFilters) (sf0 nf0 : Int) (en0 el0 eh0 : Bool)
    (xs : List ℚ) (sampleFreq notchFreq : Int) (en el eh : Bool) (x : ℚ) :
    (∀ i, (((run EMGFilters.update (p0.init sf0 nf0 en0 el0 eh0) xs).2.init
        sampleFreq notchFreq en el eh).LPF.states i) = 0) ∧
      (∀ i, (((run EMGFilters.update (p0.init sf0 nf0 en0 el0 eh0) xs).2.init
        sampleFreq notchFreq en el eh).HPF.states i) = 0) ∧
      (∀ i, (((run EMGFilters.update (p0.init sf0 nf0 en0 el0 eh0) xs).2.init
        sampleFreq notchFreq en el eh).AHF.states i) = 0) ∧
      ((((run EMGFilters.update (p0.init sf0 nf0 en0 el0 eh0) xs).2.init
        sampleFreq notchFreq en el eh).update x).1
        = ((fresh.init sampleFreq notchFreq en el eh).update x).1) := by
  refine ⟨?_, ?_, ?_, ?_⟩
  · intro i
    rw [init_LPF, FILTER_2nd_init_states]
  · intro i
    rw [init_HPF, FILTER_2nd_init_states]
  · intro i
    rw [init_AHF, FILTER_4th_init_states]
  · have hrun := run_init_indep (run EMGFilters.update (p0.init sf0 nf0 en0 el0 eh0) xs).2
      fresh sampleFreq notchFreq en el eh [x]
    simpa [run] using hrun

/-- C9: two pipeline objects with arbitrary, possibly different, earlier contents that are
initialised with the same parameters and fed the same finite input sequence give the same
output sequence. -/
theorem C9_outputs_depend_on_params_and_inputs (p q : EMGFilters) (sampleFreq notchFreq : Int)
    (en el eh : Bool) (xs : List ℚ) :
    (run EMGFilters.update (p.init sampleFreq notchFreq en el eh) xs).1 =
      (run EMGFilters.update (q.init sampleFreq notchFreq en el eh) xs).1 :=
  run_init_indep p q sampleFreq notchFreq en el eh xs

/-- C10 (as stated, refuted): at 1000 Hz / 60 Hz with all stages enabled the first output
on the input sequence 1, 0, 0, 0, 0 is not `0.9150 * 0.1311 * 1.4206 * 0.5824`. -/
theorem C10_first_output_counterexample :
    (run EMGFilters.update (zeroPipeline.init 1000 60 true true true) [1, 0, 0, 0, 0]).1.head?
      ≠ some (0.9150 * 0.1311 * 1.4206 * 0.5824) := by
  have h := first_update_all_enabled zeroPipeline 1000 60 1 (by decide)
  simp only [run, List.head?_cons, ne_eq, Option.some.injEq, h]
  norm_num [EMGFilters.init, FILTER_2nd.init, FILTER_4th.init, freqIdx, SAMPLE_FREQ_500HZ,
    SAMPLE_FREQ_1000HZ, SAMPLE_FREQ_2000HZ, NOTCH_FREQ_50HZ, NOTCH_FREQ_60HZ,
    lpf_numerator_coef, lpf_denominator_coef, hpf_numerator_coef, hpf_denominator_coef,
    ahf_numerator_coef_60Hz, ahf_output_gain_coef_60Hz]

/-- C10 (amended): at 1000 Hz / 60 Hz with all stages enabled, from any earlier contents,
the first output on the input sequence 1, 0, 0, 0, 0 is the product of the leading
numerators of both notch sections, the notch gain and the leading numerators of the
low-pass and high-pass filters:
`hpf_num[1][0] * lpf_num[1][0] * gain * num4th[3] * num4th[0]
  = 0.9150 * 0.1311 * 1.4206 * 1.0736 * 0.5824`. -/
theorem C10_first_output_amended (p : EMGFilters) :
    (run EMGFilters.update (p.init 1000 60 true true true) [1, 0, 0, 0, 0]).1.head?
        = some (hpf_numerator_coef 1 0 * lpf_numerator_coef 1 0 * ahf_output_gain_coef_60Hz 1
            * ahf_numerator_coef_60Hz 1 3 * ahf_numerator_coef_60Hz 1 0) ∧
      hpf_numerator_coef 1 0 * lpf_numerator_coef 1 0 * ahf_output_gain_coef_60Hz 1
            * ahf_numerator_coef_60Hz 1 3 * ahf_numerator_coef_60Hz 1 0
        = 0.9150 * 0.1311 * 1.4206 * 1.0736 * 0.5824 := by
  have h := first_update_all_enabled p 1000 60 1 (by decide)
  constructor
  · simp only [run, List.head?_cons, Option.some.injEq, h]
    norm_num [EMGFilters.init, FILTER_2nd.init, FILTER_4th.init, freqIdx, SAMPLE_FREQ_500HZ,
      SAMPLE_FREQ_1000HZ, SAMPLE_FREQ_2000HZ, NOTCH_FREQ_50HZ, NOTCH_FREQ_60HZ,
      lpf_numerator_coef, lpf_denominator_coef, hpf_numerator_coef, hpf_denominator_coef,
      ahf_numerator_coef_60Hz, ahf_output_gain_coef_60Hz]
  · norm_num [lpf_numerator_coef, hpf_numerator_coef, ahf_numerator_coef_60Hz,
      ahf_output_gain_coef_60Hz]

/-! ## Frame properties of `update` and `init` -/

/-- A run of `FILTER_2nd.update` never changes `num` or `den`. -/
theorem run_FILTER_2nd_coeffs (xs : List ℚ) (f : FILTER_2nd) :
    (run FILTER_2nd.update f xs).2.num = f.num ∧ (run FILTER_2nd.update f xs).2.den = f.den := by
  induction xs generalizing f with
  | nil => exact ⟨rfl, rfl⟩
  | cons x xs ih =>
    rw [run]
    exact ⟨(ih (f.update x).2).1, (ih (f.update x).2).2⟩

/-- A run of `FILTER_4th.update` never changes `num`, `den` or `gain`. -/
theorem run_FILTER_4th_coeffs (xs : List ℚ) (f : FILTER_4th) :
    (run FILTER_4th.update f xs).2.num = f.num ∧ (run FILTER_4th.update f xs).2.den = f.den ∧
      (run FILTER_4th.update f xs).2.gain = f.gain := by
  induction xs generalizing f with
  | nil => exact ⟨rfl, rfl, rfl⟩
  | cons x xs ih =>
    rw [run]
    exact ⟨(ih (f.update x).2).1, (ih (f.update x).2).2.1, (ih (f.update x).2).2.2⟩

/-- C12: on a pipeline that is not bypassed, `update x` leaves the filter object (delay
states and coefficients) of every stage whose enable flag is false exactly as it was; so
after `init` with a supported pair, over every input sequence, the filter of a disabled
stage is still the one `init` left, with all its delay states zero. -/
theorem C12_disabled_stage_not_advanced (p q : EMGFilters) (x : ℚ)
    (sampleFreq notchFreq : Int) (en el eh : Bool) (xs : List ℚ)
    (hb : p.m_bypassEnabled = false) (h : Supported sampleFreq notchFreq) :
    (p.m_notchFilterEnabled = false → (p.update x).2.AHF = p.AHF) ∧
      (p.m_lowpassFilterEnabled = false → (p.update x).2.LPF = p.LPF) ∧
      (p.m_highpassFilterEnabled = false → (p.update x).2.HPF = p.HPF) ∧
      (en = false →
        (run EMGFilters.update (q.init sampleFreq notchFreq en el eh) xs).2.AHF
            = (q.init sampleFreq notchFreq en el eh).AHF ∧
          ∀ i, (run EMGFilters.update (q.init sampleFreq notchFreq en el eh) xs).2.AHF.states i
            = 0) ∧
      (el = false →
        (run EMGFilters.update (q.init sampleFreq notchFreq en el eh) xs).2.LPF
            = (q.init sampleFreq notchFreq en el eh).LPF ∧
          ∀ i, (run EMGFilters.update (q.init sampleFreq notchFreq en el eh) xs).2.LPF.states i
            = 0) ∧
      (eh = false →
        (run EMGFilters.update (q.init sampleFreq notchFreq en el eh) xs).2.HPF
            = (q.init sampleFreq notchFreq en el eh).HPF ∧
          ∀ i, (run EMGFilters.update (q.init sampleFreq notchFreq en el eh) xs).2.HPF.states i
            = 0) := by
  have hq := (init_bypass_false_iff q sampleFreq notchFreq en el eh).2 h
  have hone := congrArg Prod.snd (run_update_valid [x] p hb)
  simp only [run] at hone
  refine ⟨?_, ?_, ?_, ?_, ?_, ?_⟩
  · intro hf
    rw [hone]
    simp [stageRun, hf]
  · intro hf
    rw [hone]
    simp [stageRun, hf]
  · intro hf
    rw [hone]
    simp [stageRun, hf]
  · intro hf
    subst hf
    rw [run_update_valid xs _ hq]
    simp only [init_notchFlag, stageRun, Bool.false_eq_true, if_false, init_AHF]
    exact ⟨trivial, fun i => by rw [FILTER_4th_init_states]⟩
  · intro hf
    subst hf
    rw [run_update_valid xs _ hq]
    simp only [init_lowpassFlag, stageRun, Bool.false_eq_true, if_false, init_LPF]
    exact ⟨trivial, fun i => by rw [FILTER_2nd_init_states]⟩
  · intro hf
    subst hf
    rw [run_update_valid xs _ hq]
    simp only [init_highpassFlag, stageRun, Bool.false_eq_true, if_false, init_HPF]
    exact ⟨trivial, fun i => by rw [FILTER_2nd_init_states]⟩

/-- Witness of C12: a pipeline at 1000 Hz / 60 Hz with only the low-pass stage enabled. -/
theorem C12_disabled_stage_not_advanced_witness :
    (zeroPipeline.init 1000 60 false true false).m_bypassEnabled = false ∧ Supported 500 50 ∧
      (((zeroPipeline.init 1000 60 false true false).m_notchFilterEnabled = false →
        ((zeroPipeline.init 1000 60 false true false).update 3).2.AHF
          = (zeroPipeline.init 1000 60 false true false).AHF) ∧
      ((zeroPipeline.init 1000 60 false true false).m_lowpassFilterEnabled = false →
        ((zeroPipeline.init 1000 60 false true false).update 3).2.LPF
          = (zeroPipeline.init 1000 60 false true false).LPF) ∧
      ((zeroPipeline.init 1000 60 false true false).m_highpassFilterEnabled = false →
        ((zeroPipeline.init 1000 60 false true false).update 3).2.HPF
          = (zeroPipeline.init 1000 60 false true false).HPF) ∧
      (false = false →
        (run EMGFilters.update (zeroPipeline.init 500 50 false true false) [1, 2]).2.AHF
            = (zeroPipeline.init 500 50 false true false).AHF ∧
          ∀ i, (run EMGFilters.update
            (zeroPipeline.init 500 50 false true false) [1, 2]).2.AHF.states i = 0) ∧
      (true = false →
        (run EMGFilters.update (zeroPipeline.init 500 50 false true false) [1, 2]).2.LPF
            = (zeroPipeline.init 500 50 false true false).LPF ∧
          ∀ i, (run EMGFilters.update
            (zeroPipeline.init 500 50 false true false) [1, 2]).2.LPF.states i = 0) ∧
      (false = false →
        (run EMGFilters.update (zeroPipeline.init 500 50 false true false) [1, 2]).2.HPF
            = (zeroPipeline.init 500 50 false true false).HPF ∧
          ∀ i, (run EMGFilters.update
            (zeroPipeline.init 500 50 false true false) [1, 2]).2.HPF.states i = 0)) :=
  ⟨by decide, by decide,
    C12_disabled_stage_not_advanced (zeroPipeline.init 1000 60 false true false) zeroPipeline 3
      500 50 false true false [1, 2] (by decide) (by decide)⟩

/-- C13: `FILTER_4th.init` with a sample rate outside 500, 1000, 2000 Hz or a hum
frequency outside 50, 60 Hz leaves the four delay states and the gain equal to 0,
whatever the object held, and leaves `num` and `den` as they were. -/
theorem C13_FILTER_4th_init_unsupported (f : FILTER_4th) (sampleFreq humFreq : Int)
    (h : ¬ (sampleFreq = 500 ∨ sampleFreq = 1000 ∨ sampleFreq = 2000) ∨
      ¬ (humFreq = 50 ∨ humFreq = 60)) :
    (∀ i, (f.init sampleFreq humFreq).states i = 0) ∧
      (f.init sampleFreq humFreq).gain = 0 ∧
      (f.init sampleFreq humFreq).num = f.num ∧
      (f.init sampleFreq humFreq).den = f.den := by
  refine ⟨fun i => by rw [FILTER_4th_init_states], ?_⟩
  rcases h with hs | hh
  · have hn := (freqIdx_eq_none_iff sampleFreq).2 hs
    simp [FILTER_4th.init, hn]
  · have h50 : ¬ humFreq = NOTCH_FREQ_50HZ := fun e => hh (Or.inl e)
    have h60 : ¬ humFreq = NOTCH_FREQ_60HZ := fun e => hh (Or.inr e)
    unfold FILTER_4th.init
    cases freqIdx sampleFreq <;> simp [h50, h60]

/-- Witness of C13 on `sampleNotch` at 1000 Hz with the unsupported hum frequency 55 Hz. -/
theorem C13_FILTER_4th_init_unsupported_witness :
    (¬ ((1000 : Int) = 500 ∨ (1000 : Int) = 1000 ∨ (1000 : Int) = 2000) ∨
        ¬ ((55 : Int) = 50 ∨ (55 : Int) = 60)) ∧
      ((∀ i, (sampleNotch.init 1000 55).states i = 0) ∧
      (sampleNotch.init 1000 55).gain = 0 ∧
      (sampleNotch.init 1000 55).num = sampleNotch.num ∧
      (sampleNotch.init 1000 55).den = sampleNotch.den) :=
  ⟨by decide, C13_FILTER_4th_init_unsupported sampleNotch 1000 55 (by decide)⟩

/-- C14: `FILTER_2nd.init` with a sample rate outside 500, 1000, 2000 Hz leaves `num`
and `den` exactly as they were before the call and still resets both delay states
to 0. -/
theorem C14_FILTER_2nd_init_unrecognised (f : FILTER_2nd) (ftype : FILTER_TYPE)
    (sampleFreq : Int) (h : ¬ (sampleFreq = 500 ∨ sampleFreq = 1000 ∨ sampleFreq = 2000)) :
    (f.init ftype sampleFreq).num = f.num ∧
      (f.init ftype sampleFreq).den = f.den ∧
      ∀ i, (f.init ftype sampleFreq).states i = 0 := by
  have hn := (freqIdx_eq_none_iff sampleFreq).2 h
  refine ⟨?_, ?_, fun i => by rw [FILTER_2nd_init_states]⟩
  · simp [FILTER_2nd.init, hn]
  · simp [FILTER_2nd.init, hn]

/-- Witness of C14 on `sampleBiquad` at the unsupported sample rate 250 Hz. -/
theorem C14_FILTER_2nd_init_unrecognised_witness :
    ¬ ((250 : Int) = 500 ∨ (250 : Int) = 1000 ∨ (250 : Int) = 2000) ∧
      ((sampleBiquad.init FILTER_TYPE.FILTER_TYPE_LOWPASS 250).num = sampleBiquad.num ∧
      (sampleBiquad.init FILTER_TYPE.FILTER_TYPE_LOWPASS 250).den = sampleBiquad.den ∧
      ∀ i, (sampleBiquad.init FILTER_TYPE.FILTER_TYPE_LOWPASS 250).states i = 0) :=
  ⟨by decide, C14_FILTER_2nd_init_unrecognised sampleBiquad FILTER_TYPE.FILTER_TYPE_LOWPASS 250
    (by decide)⟩

/-- After `FILTER_2nd.init` with a recognised sample rate `den[0]` is 1. -/
theorem FILTER_2nd_init_den0 (f : FILTER_2nd) (t : FILTER_TYPE) (sf : Int)
    (h : sf = 500 ∨ sf = 1000 ∨ sf = 2000) : (f.init t sf).den 0 = 1 := by
  rcases h with h | h | h <;> subst h <;> cases t <;>
    norm_num [FILTER_2nd.init, freqIdx, SAMPLE_FREQ_500HZ, SAMPLE_FREQ_1000HZ,
      SAMPLE_FREQ_2000HZ, lpf_denominator_coef, hpf_denominator_coef]

/-- C15: every row of `lpf_denominator_coef` and `hpf_denominator_coef` starts with 1; so
for a low-pass or high-pass `FILTER_2nd` initialised with 500, 1000 or 2000 Hz, `den[0]`
is 1 after `init` and, `update` never changing `den`, still 1 (in particular not zero)
after any sequence of `update` calls; the next `update x` therefore computes
`w = x - den[1]*s0 - den[2]*s1`, stores it in `states[0]` and returns
`num[0]*w + num[1]*s0 + num[2]*s1`. -/
theorem C15_den0_is_one (f : FILTER_2nd) (ftype : FILTER_TYPE) (sampleFreq : Int)
    (xs : List ℚ) (x : ℚ) (h : sampleFreq = 500 ∨ sampleFreq = 1000 ∨ sampleFreq = 2000) :
    (∀ idx, lpf_denominator_coef idx 0 = 1 ∧ hpf_denominator_coef idx 0 = 1) ∧
      (f.init ftype sampleFreq).den 0 = 1 ∧
      (run FILTER_2nd.update (f.init ftype sampleFreq) xs).2.den
        = (f.init ftype sampleFreq).den ∧
      (run FILTER_2nd.update (f.init ftype sampleFreq) xs).2.den 0 = 1 ∧
      (run FILTER_2nd.update (f.init ftype sampleFreq) xs).2.den 0 ≠ 0 ∧
      (((run FILTER_2nd.update (f.init ftype sampleFreq) xs).2.update x).2.states 0
        = x - (run FILTER_2nd.update (f.init ftype sampleFreq) xs).2.den 1 *
              (run FILTER_2nd.update (f.init ftype sampleFreq) xs).2.states 0
            - (run FILTER_2nd.update (f.init ftype sampleFreq) xs).2.den 2 *
              (run FILTER_2nd.update (f.init ftype sampleFreq) xs).2.states 1) ∧
      (((run FILTER_2nd.update (f.init ftype sampleFreq) xs).2.update x).1
        = (run FILTER_2nd.update (f.init ftype sampleFreq) xs).2.num 0 *
            (x - (run FILTER_2nd.update (f.init ftype sampleFreq) xs).2.den 1 *
                (run FILTER_2nd.update (f.init ftype sampleFreq) xs).2.states 0
              - (run FILTER_2nd.update (f.init ftype sampleFreq) xs).2.den 2 *
                (run FILTER_2nd.update (f.init ftype sampleFreq) xs).2.states 1)
          + (run FILTER_2nd.update (f.init ftype sampleFreq) xs).2.num 1 *
              (run FILTER_2nd.update (f.init ftype sampleFreq) xs).2.states 0
          + (run FILTER_2nd.update (f.init ftype sampleFreq) xs).2.num 2 *
              (run FILTER_2nd.update (f.init ftype sampleFreq) xs).2.states 1) := by
  have h0 := FILTER_2nd_init_den0 f ftype sampleFreq h
  have hden := (run_FILTER_2nd_coeffs xs (f.init ftype sampleFreq)).2
  have h1 : (run FILTER_2nd.update (f.init ftype sampleFreq) xs).2.den 0 = 1 := by
    rw [hden, h0]
  refine ⟨?_, h0, hden, h1, ?_, ?_, ?_⟩
  · intro idx
    fin_cases idx <;> norm_num [lpf_denominator_coef, hpf_denominator_coef]
  · rw [h1]
    exact one_ne_zero
  · simp [FILTER_2nd.update, h1]
  · simp [FILTER_2nd.update, h1]

/-- Witness of C15: a high-pass filter at 2000 Hz after the inputs 1, 2 and then 3. -/
theorem C15_den0_is_one_witness :
    ((2000 : Int) = 500 ∨ (2000 : Int) = 1000 ∨ (2000 : Int) = 2000) ∧
      (sampleBiquad.init FILTER_TYPE.FILTER_TYPE_HIGHPASS 2000).den 0 = 1 ∧
      (run FILTER_2nd.update
        (sampleBiquad.init FILTER_TYPE.FILTER_TYPE_HIGHPASS 2000) [1, 2]).2.den 0 ≠ 0 :=
  ⟨by decide,
    (C15_den0_is_one sampleBiquad FILTER_TYPE.FILTER_TYPE_HIGHPASS 2000 [1, 2] 3
      (by decide)).2.1,
    (C15_den0_is_one sampleBiquad FILTER_TYPE.FILTER_TYPE_HIGHPASS 2000 [1, 2] 3
      (by decide)).2.2.2.2.1⟩

/-- C17: for every supported pair with all three stages enabled and every input `x`, the
first `update x` after `EMGFilters.init` returns
`hpf_num[idx][0] * lpf_num[idx][0] * gain * ahf_num[idx][3] * ahf_num[idx][0] * x`, where
`idx` is the table row of the sample rate (500 gives 0, 1000 gives 1, 2000 gives 2) and
`gain`, `ahf_num` come from the 50 Hz tables when the notch frequency is 50 and from the
60 Hz tables when it is 60. -/
theorem C17_first_output_all_pairs (p : EMGFilters) (sampleFreq notchFreq : Int) (x : ℚ)
    (h : Supported sampleFreq notchFreq) :
    ∃ idx : Fin 3,
      ((sampleFreq = 500 ∧ idx = 0) ∨ (sampleFreq = 1000 ∧ idx = 1) ∨
        (sampleFreq = 2000 ∧ idx = 2)) ∧
      (notchFreq = 50 →
        ((p.init sampleFreq notchFreq true true true).update x).1 =
          hpf_numerator_coef idx 0 * lpf_numerator_coef idx 0 * ahf_output_gain_coef_50Hz idx *
            ahf_numerator_coef_50Hz idx 3 * ahf_numerator_coef_50Hz idx 0 * x) ∧
      (notchFreq = 60 →
        ((p.init sampleFreq notchFreq true true true).update x).1 =
          hpf_numerator_coef idx 0 * lpf_numerator_coef idx 0 * ahf_output_gain_coef_60Hz idx *
            ahf_numerator_coef_60Hz idx 3 * ahf_numerator_coef_60Hz idx 0 * x) := by
  have hf := first_update_all_enabled p sampleFreq notchFreq x h
  obtain ⟨hs, hn⟩ := h
  rcases hs with hs | hs | hs
  · refine ⟨0, Or.inl ⟨hs, rfl⟩, ?_, ?_⟩ <;> intro hn2 <;> rw [hf] <;> subst hs <;> subst hn2 <;>
      norm_num [EMGFilters.init, FILTER_2nd.init, FILTER_4th.init, freqIdx, SAMPLE_FREQ_500HZ,
        SAMPLE_FREQ_1000HZ, SAMPLE_FREQ_2000HZ, NOTCH_FREQ_50HZ, NOTCH_FREQ_60HZ,
        lpf_numerator_coef, lpf_denominator_coef, hpf_numerator_coef, hpf_denominator_coef,
        ahf_numerator_coef_50Hz, ahf_output_gain_coef_50Hz,
        ahf_numerator_coef_60Hz, ahf_output_gain_coef_60Hz] <;> ring
  · refine ⟨1, Or.inr (Or.inl ⟨hs, rfl⟩), ?_, ?_⟩ <;> intro hn2 <;> rw [hf] <;> subst hs <;>
      subst hn2 <;>
      norm_num [EMGFilters.init, FILTER_2nd.init, FILTER_4th.init, freqIdx, SAMPLE_FREQ_500HZ,
        SAMPLE_FREQ_1000HZ, SAMPLE_FREQ_2000HZ, NOTCH_FREQ_50HZ, NOTCH_FREQ_60HZ,
        lpf_numerator_coef, lpf_denominator_coef, hpf_numerator_coef, hpf_denominator_coef,
        ahf_numerator_coef_50Hz, ahf_output_gain_coef_50Hz,
        ahf_numerator_coef_60Hz, ahf_output_gain_coef_60Hz] <;> ring
  · refine ⟨2, Or.inr (Or.inr ⟨hs, rfl⟩), ?_, ?_⟩ <;> intro hn2 <;> rw [hf] <;> subst hs <;>
      subst hn2 <;>
      norm_num [EMGFilters.init, FILTER_2nd.init, FILTER_4th.init, freqIdx, SAMPLE_FREQ_500HZ,
        SAMPLE_FREQ_1000HZ, SAMPLE_FREQ_2000HZ, NOTCH_FREQ_50HZ, NOTCH_FREQ_60HZ,
        lpf_numerator_coef, lpf_denominator_coef, hpf_numerator_coef, hpf_denominator_coef,
        ahf_numerator_coef_50Hz, ahf_output_gain_coef_50Hz,
        ahf_numerator_coef_60Hz, ahf_output_gain_coef_60Hz] <;> ring

/-- Witness of C17 at 500 Hz / 50 Hz with input 2. -/
theorem C17_first_output_all_pairs_witness :
    Supported 500 50 ∧
      ∃ idx : Fin 3,
        (((500 : Int) = 500 ∧ idx = 0) ∨ ((500 : Int) = 1000 ∧ idx = 1) ∨
          ((500 : Int) = 2000 ∧ idx = 2)) ∧
        ((50 : Int) = 50 →
          ((zeroPipeline.init 500 50 true true true).update 2).1 =
            hpf_numerator_coef idx 0 * lpf_numerator_coef idx 0 * ahf_output_gain_coef_50Hz idx *
              ahf_numerator_coef_50Hz idx 3 * ahf_numerator_coef_50Hz idx 0 * 2) ∧
        ((50 : Int) = 60 →
          ((zeroPipeline.init 500 50 true true true).update 2).1 =
            hpf_numerator_coef idx 0 * lpf_numerator_coef idx 0 * ahf_output_gain_coef_60Hz idx *
              ahf_numerator_coef_60Hz idx 3 * ahf_numerator_coef_60Hz idx 0 * 2) :=
  ⟨by decide, C17_first_output_all_pairs zeroPipeline 500 50 2 (by decide)⟩

/-! ## The two recursive forms -/

/-- A transposed-form stage and a Direct-Form II `FILTER_2nd` with the same coefficients
and `den[0] = 1` give the same outputs whenever their states are related by
`t0 = (b1 - a1*b0)*s0 + (b2 - a2*b0)*s1`, `t1 = (b2 - a2*b0)*s0 + (a1*b2 - a2*b1)*s1`. -/
theorem transposedStage_simulates (xs : List ℚ) (g : FILTER_2nd) (t : ℚ × ℚ)
    (hd : g.den 0 = 1)
    (h0 : t.1 = (g.num 1 - g.den 1 * g.num 0) * g.states 0
      + (g.num 2 - g.den 2 * g.num 0) * g.states 1)
    (h1 : t.2 = (g.num 2 - g.den 2 * g.num 0) * g.states 0
      + (g.den 1 * g.num 2 - g.den 2 * g.num 1) * g.states 1) :
    (run (transposedStage (g.num 0) (g.num 1) (g.num 2) (g.den 1) (g.den 2)) t xs).1 =
      (run FILTER_2nd.update g xs).1 := by
  induction xs generalizing g t with
  | nil => rfl
  | cons x xs ih =>
    rw [run, run]
    have hout : (transposedStage (g.num 0) (g.num 1) (g.num 2) (g.den 1) (g.den 2) t x).1
        = (g.update x).1 := by
      simp only [transposedStage, FILTER_2nd.update, hd, div_one, h0]
      ring
    have hrest := ih (g.update x).2
      (transposedStage (g.num 0) (g.num 1) (g.num 2) (g.den 1) (g.den 2) t x).2 hd
      (by simp only [transposedStage, FILTER_2nd.update, hd, div_one, h0, h1]
          simp
          ring)
      (by simp only [transposedStage, FILTER_2nd.update, hd, div_one, h0, h1]
          simp
          ring)
    simp only [List.cons.injEq]
    exact ⟨hout, hrest⟩

/-- The function `FILTER_4th.update` is two transposed-form stages in a row, the first on
`(states[0], states[1])`, the second on `(states[2], states[3])`, times `gain`. -/
theorem FILTER_4th_run_as_stages (xs : List ℚ) (f : FILTER_4th) :
    (run FILTER_4th.update f xs).1 =
      List.map (fun y => f.gain * y)
        (run (transposedStage (f.num 3) (f.num 4) (f.num 5) (f.den 4) (f.den 5))
          (f.states 2, f.states 3)
          (run (transposedStage (f.num 0) (f.num 1) (f.num 2) (f.den 1) (f.den 2))
            (f.states 0, f.states 1) xs).1).1 := by
  induction xs generalizing f with
  | nil => rfl
  | cons x xs ih =>
    rw [run, ih (f.update x).2]
    simp [run, transposedStage, FILTER_4th.update]

/-- C16: in exact arithmetic, for all coefficients `b0, b1, b2, a1, a2` and every finite
input sequence, one transposed-form stage started from zero state gives the same outputs
as `FILTER_2nd.update` with `num = (b0, b1, b2)`, `den = (1, a1, a2)` started from zero
state; `FILTER_4th.update` is two such stages in a row (on `states[0..1]` with
`num[0..2], den[1..2]` and on `states[2..3]` with `num[3..5], den[4..5]`) times `gain`;
hence the outputs of a `FILTER_4th` started from zero state are `gain` times those of the
two cascaded `FILTER_2nd` recursions. -/
theorem C16_transposed_equals_direct_form (b0 b1 b2 a1 a2 : ℚ) (f : FILTER_4th) (x : ℚ)
    (xs : List ℚ) :
    (run (transposedStage b0 b1 b2 a1 a2) (0, 0) xs).1 =
        (run FILTER_2nd.update (biquadOf b0 b1 b2 a1 a2) xs).1 ∧
      ((f.update x).1 = f.gain *
          (transposedStage (f.num 3) (f.num 4) (f.num 5) (f.den 4) (f.den 5)
            (f.states 2, f.states 3)
            (transposedStage (f.num 0) (f.num 1) (f.num 2) (f.den 1) (f.den 2)
              (f.states 0, f.states 1) x).1).1 ∧
        ((f.update x).2.states 0, (f.update x).2.states 1) =
          (transposedStage (f.num 0) (f.num 1) (f.num 2) (f.den 1) (f.den 2)
            (f.states 0, f.states 1) x).2 ∧
        ((f.update x).2.states 2, (f.update x).2.states 3) =
          (transposedStage (f.num 3) (f.num 4) (f.num 5) (f.den 4) (f.den 5)
            (f.states 2, f.states 3)
            (transposedStage (f.num 0) (f.num 1) (f.num 2) (f.den 1) (f.den 2)
              (f.states 0, f.states 1) x).1).2) ∧
      (run FILTER_4th.update { f with states := fun _ => 0 } xs).1 =
        List.map (fun y => f.gain * y)
          (run FILTER_2nd.update (biquadOf (f.num 3) (f.num 4) (f.num 5) (f.den 4) (f.den 5))
            (run FILTER_2nd.update
              (biquadOf (f.num 0) (f.num 1) (f.num 2) (f.den 1) (f.den 2)) xs).1).1 := by
  have key : ∀ (c0 c1 c2 d1 d2 : ℚ) (ys : List ℚ),
      (run (transposedStage c0 c1 c2 d1 d2) (0, 0) ys).1 =
        (run FILTER_2nd.update (biquadOf c0 c1 c2 d1 d2) ys).1 := by
    intro c0 c1 c2 d1 d2 ys
    have h := transposedStage_simulates ys (biquadOf c0 c1 c2 d1 d2) (0, 0)
      (by simp [biquadOf]) (by simp [biquadOf]) (by simp [biquadOf])
    simpa [biquadOf] using h
  refine ⟨key b0 b1 b2 a1 a2 xs, ⟨?_, ?_, ?_⟩, ?_⟩
  · simp [transposedStage, FILTER_4th.update]
  · simp [transposedStage, FILTER_4th.update]
  · simp [transposedStage, FILTER_4th.update]
  · rw [FILTER_4th_run_as_stages]
    simp only
    rw [key, key]

/-! ## Linearity -/

/-- Superposition for `FILTER_2nd`: with equal coefficients and delay states combined as
`a*s + b*s2`, the outputs on `a*u + b*v` are the combined outputs. -/
theorem FILTER_2nd_run_lincomb (a b : ℚ) (u v : List ℚ) (f1 f2 f3 : FILTER_2nd)
    (hn1 : f1.num = f3.num) (hn2 : f2.num = f3.num) (hd1 : f1.den = f3.den)
    (hd2 : f2.den = f3.den) (hs : ∀ i, f3.states i = a * f1.states i + b * f2.states i) :
    (run FILTER_2nd.update f3 (lincomb a b u v)).1 =
      lincomb a b (run FILTER_2nd.update f1 u).1 (run FILTER_2nd.update f2 v).1 := by
  induction u generalizing v f1 f2 f3 with
  | nil => simp [lincomb, run]
  | cons x u ih =>
    cases v with
    | nil => simp [lincomb, run]
    | cons y v =>
      have hrest := ih v (f1.update x).2 (f2.update y).2 (f3.update (a * x + b * y)).2
        hn1 hn2 hd1 hd2
        (by
          intro i
          fin_cases i
          · simp [FILTER_2nd.update, hs, hd1, hd2]
            ring
          · simp [FILTER_2nd.update, hs])
      simp only [lincomb, List.zipWith_cons_cons, run, List.cons.injEq] at hrest ⊢
      refine ⟨?_, hrest⟩
      simp only [FILTER_2nd.update, hs, hn1, hn2, hd1, hd2]
      ring

/-- Superposition for `FILTER_4th`: with equal coefficients and gain and delay states
combined as `a*s + b*s2`, the outputs on `a*u + b*v` are the combined outputs. -/
theorem FILTER_4th_run_lincomb (a b : ℚ) (u v : List ℚ) (f1 f2 f3 : FILTER_4th)
    (hn1 : f1.num = f3.num) (hn2 : f2.num = f3.num) (hd1 : f1.den = f3.den)
    (hd2 : f2.den = f3.den) (hg1 : f1.gain = f3.gain) (hg2 : f2.gain = f3.gain)
    (hs : ∀ i, f3.states i = a * f1.states i + b * f2.states i) :
    (run FILTER_4th.update f3 (lincomb a b u v)).1 =
      lincomb a b (run FILTER_4th.update f1 u).1 (run FILTER_4th.update f2 v).1 := by
  induction u generalizing v f1 f2 f3 with
  | nil => simp [lincomb, run]
  | cons x u ih =>
    cases v with
    | nil => simp [lincomb, run]
    | cons y v =>
      have hrest := ih v (f1.update x).2 (f2.update y).2 (f3.update (a * x + b * y)).2
        hn1 hn2 hd1 hd2 hg1 hg2
        (by
          intro i
          fin_cases i <;> simp [FILTER_4th.update, hs, hn1, hn2, hd1, hd2] <;> ring)
      simp only [lincomb, List.zipWith_cons_cons, run, List.cons.injEq] at hrest ⊢
      refine ⟨?_, hrest⟩
      simp only [FILTER_4th.update, hn1, hn2, hg1, hg2]
      simp only [ne_eq, Fin.reduceEq, not_false_eq_true, Function.update_noteq, hs]
      ring

/-- Superposition for one stage of the pipeline, enabled or not, started from zero
delay states. -/
theorem stageRun_lincomb_2nd (en : Bool) (a b : ℚ) (u v : List ℚ) (f : FILTER_2nd)
    (hz : ∀ i, f.states i = 0) :
    (stageRun en FILTER_2nd.update f (lincomb a b u v)).1 =
      lincomb a b (stageRun en FILTER_2nd.update f u).1 (stageRun en FILTER_2nd.update f v).1 := by
  cases en
  · simp [stageRun]
  · simp only [stageRun, if_true]
    exact FILTER_2nd_run_lincomb a b u v f f f rfl rfl rfl rfl (by intro i; simp [hz])

/-- Superposition for the notch stage of the pipeline, enabled or not, started from zero
delay states. -/
theorem stageRun_lincomb_4th (en : Bool) (a b : ℚ) (u v : List ℚ) (f : FILTER_4th)
    (hz : ∀ i, f.states i = 0) :
    (stageRun en FILTER_4th.update f (lincomb a b u v)).1 =
      lincomb a b (stageRun en FILTER_4th.update f u).1 (stageRun en FILTER_4th.update f v).1 := by
  cases en
  · simp [stageRun]
  · simp only [stageRun, if_true]
    exact FILTER_4th_run_lincomb a b u v f f f rfl rfl rfl rfl rfl rfl (by intro i; simp [hz])

/-- A `FILTER_2nd` with zero delay states maps the sample 0 to 0 and stays as it is. -/
theorem FILTER_2nd_update_zero (f : FILTER_2nd) (hz : ∀ i, f.states i = 0) :
    f.update 0 = (0, f) := by
  obtain ⟨st, num, den⟩ := f
  have hst : st = fun _ => 0 := funext hz
  subst hst
  simp only [FILTER_2nd.update, Prod.mk.injEq, FILTER_2nd.mk.injEq, and_true]
  refine ⟨by simp, ?_⟩
  funext i
  fin_cases i <;> simp

/-- A `FILTER_4th` with zero delay states maps the sample 0 to 0 and stays as it is. -/
theorem FILTER_4th_update_zero (f : FILTER_4th) (hz : ∀ i, f.states i = 0) :
    f.update 0 = (0, f) := by
  obtain ⟨st, num, den, gain⟩ := f
  have hst : st = fun _ => 0 := funext hz
  subst hst
  simp only [FILTER_4th.update, Prod.mk.injEq, FILTER_4th.mk.injEq, and_true]
  refine ⟨by simp, ?_⟩
  funext i
  fin_cases i <;> simp

/-- A pipeline whose eight delay states are zero maps the sample 0 to 0 and stays as it
is, whatever its flags. -/
theorem EMGFilters_update_zero (p : EMGFilters) (hA : ∀ i, p.AHF.states i = 0)
    (hL : ∀ i, p.LPF.states i = 0) (hH : ∀ i, p.HPF.states i = 0) :
    p.update 0 = (0, p) := by
  obtain ⟨sf, nf, bp, n, l, h, L, H, A⟩ := p
  simp only at hA hL hH
  cases bp <;> cases n <;> cases l <;> cases h <;>
    simp [EMGFilters.update, FILTER_2nd_update_zero L hL, FILTER_2nd_update_zero H hH,
      FILTER_4th_update_zero A hA]

/-- After `init` all eight delay states are zero. -/
theorem init_states_zero (p : EMGFilters) (sf nf : Int) (a b c : Bool) :
    (∀ i, (p.init sf nf a b c).AHF.states i = 0) ∧
      (∀ i, (p.init sf nf a b c).LPF.states i = 0) ∧
      (∀ i, (p.init sf nf a b c).HPF.states i = 0) :=
  ⟨fun i => by rw [init_AHF, FILTER_4th_init_states],
    fun i => by rw [init_LPF, FILTER_2nd_init_states],
    fun i => by rw [init_HPF, FILTER_2nd_init_states]⟩

/-- C18: superposition in exact arithmetic.  For every `init` parameter tuple, input
sequences `u`, `v` and scalars `a`, `b`, the outputs of a freshly initialised pipeline on
`a*u + b*v` are `a` times its outputs on `u` plus `b` times its outputs on `v`, each run
starting from its own `init` (from any earlier contents); and on an all-zero input of any
length the outputs are all zero and the object, with its eight zero delay states, is left
as `init` made it. -/
theorem C18_superposition (p1 p2 p3 : EMGFilters) (sampleFreq notchFreq : Int)
    (en el eh : Bool) (a b : ℚ) (u v : List ℚ) (n : Nat) :
    (run EMGFilters.update (p3.init sampleFreq notchFreq en el eh) (lincomb a b u v)).1 =
        lincomb a b (run EMGFilters.update (p1.init sampleFreq notchFreq en el eh) u).1
          (run EMGFilters.update (p2.init sampleFreq notchFreq en el eh) v).1 ∧
      run EMGFilters.update (p3.init sampleFreq notchFreq en el eh) (List.replicate n 0) =
        (List.replicate n 0, p3.init sampleFreq notchFreq en el eh) ∧
      (∀ i, (run EMGFilters.update (p3.init sampleFreq notchFreq en el eh)
        (List.replicate n 0)).2.AHF.states i = 0) ∧
      (∀ i, (run EMGFilters.update (p3.init sampleFreq notchFreq en el eh)
        (List.replicate n 0)).2.LPF.states i = 0) ∧
      (∀ i, (run EMGFilters.update (p3.init sampleFreq notchFreq en el eh)
        (List.replicate n 0)).2.HPF.states i = 0) := by
  obtain ⟨hA, hL, hH⟩ := init_states_zero p3 sampleFreq notchFreq en el eh
  have hzero : run EMGFilters.update (p3.init sampleFreq notchFreq en el eh)
      (List.replicate n 0) = (List.replicate n 0, p3.init sampleFreq notchFreq en el eh) := by
    induction n with
    | zero => rfl
    | succ k ih =>
      rw [List.replicate_succ, run, EMGFilters_update_zero _ hA hL hH, ih]
  refine ⟨?_, hzero, ?_, ?_, ?_⟩
  · by_cases h : Supported sampleFreq notchFreq
    · have hb := (init_bypass_false_iff p3 sampleFreq notchFreq en el eh).2 h
      rw [EMGFilters_init_indep p1 p3 sampleFreq notchFreq en el eh h,
        EMGFilters_init_indep p2 p3 sampleFreq notchFreq en el eh h,
        run_update_valid _ _ hb, run_update_valid _ _ hb, run_update_valid _ _ hb]
      simp only
      rw [stageRun_lincomb_4th _ a b u v _ hA, stageRun_lincomb_2nd _ a b _ _ _ hL,
        stageRun_lincomb_2nd _ a b _ _ _ hH]
    · rw [run_of_bypass _ ((init_bypass_true_iff p1 sampleFreq notchFreq en el eh).2 h),
        run_of_bypass _ ((init_bypass_true_iff p2 sampleFreq notchFreq en el eh).2 h),
        run_of_bypass _ ((init_bypass_true_iff p3 sampleFreq notchFreq en el eh).2 h)]
  · rw [hzero]; exact hA
  · rw [hzero]; exact hL
  · rw [hzero]; exact hH

/-! ## Convergence to zero -/

theorem TendsToZero.zero : TendsToZero (fun _ => 0) := by
  intro ε hε
  exact ⟨0, fun n _ => by simpa using hε⟩

theorem TendsToZero.add {f g : ℕ → ℚ} (hf : TendsToZero f) (hg : TendsToZero g) :
    TendsToZero (fun n => f n + g n) := by
  intro ε hε
  obtain ⟨N1, h1⟩ := hf (ε / 2) (by positivity)
  obtain ⟨N2, h2⟩ := hg (ε / 2) (by positivity)
  refine ⟨max N1 N2, fun n hn => ?_⟩
  have a1 := h1 n (le_trans (le_max_left _ _) hn)
  have a2 := h2 n (le_trans (le_max_right _ _) hn)
  calc |f n + g n| ≤ |f n| + |g n| := abs_add _ _
    _ < ε / 2 + ε / 2 := add_lt_add a1 a2
    _ = ε := by ring

theorem TendsToZero.const_mul {f : ℕ → ℚ} (c : ℚ) (hf : TendsToZero f) :
    TendsToZero (fun n => c * f n) := by
  intro ε hε
  obtain ⟨N, hN⟩ := hf (ε / (|c| + 1)) (by positivity)
  refine ⟨N, fun n hn => ?_⟩
  have h1 := hN n hn
  have hc : 0 < |c| + 1 := by positivity
  rw [abs_mul]
  calc |c| * |f n| ≤ (|c| + 1) * |f n| := by
        apply mul_le_mul_of_nonneg_right _ (abs_nonneg _)
        linarith
    _ < (|c| + 1) * (ε / (|c| + 1)) := mul_lt_mul_of_pos_left h1 hc
    _ = ε := by field_simp

theorem TendsToZero.shift {f : ℕ → ℚ} (hf : TendsToZero f) :
    TendsToZero (fun n => f (n + 1)) := by
  intro ε hε
  obtain ⟨N, hN⟩ := hf ε hε
  exact ⟨N, fun n hn => hN (n + 1) (Nat.le_succ_of_le hn)⟩

theorem TendsToZero.congr {f g : ℕ → ℚ} (hf : TendsToZero f) (h : ∀ n, g n = f n) :
    TendsToZero g := by
  intro ε hε
  obtain ⟨N, hN⟩ := hf ε hε
  exact ⟨N, fun n hn => by rw [h n]; exact hN n hn⟩

/-- A nonnegative sequence with `e (n+1) ≤ ρ * e n + d n`, `0 ≤ ρ < 1` and `d` converging
to 0 converges to 0. -/
theorem tendsToZero_of_contraction (e d : ℕ → ℚ) (ρ : ℚ) (hρ0 : 0 ≤ ρ) (hρ1 : ρ < 1)
    (he : ∀ n, 0 ≤ e n) (hstep : ∀ n, e (n + 1) ≤ ρ * e n + d n) (hd : TendsToZero d) :
    TendsToZero e := by
  intro ε hε
  have hgap : 0 < ε * (1 - ρ) / 2 := by
    have : 0 < 1 - ρ := by linarith
    positivity
  obtain ⟨N1, hN1⟩ := hd (ε * (1 - ρ) / 2) hgap
  have claim : ∀ k, e (N1 + k) ≤ ε / 2 + ρ ^ k * e N1 := by
    intro k
    induction k with
    | zero => simp; linarith
    | succ k ih =>
      have hdk := (abs_lt.1 (hN1 (N1 + k) (Nat.le_add_right _ _))).2
      have h1 := hstep (N1 + k)
      have h2 : ρ * e (N1 + k) ≤ ρ * (ε / 2 + ρ ^ k * e N1) :=
        mul_le_mul_of_nonneg_left ih hρ0
      have h3 : e (N1 + (k + 1)) = e (N1 + k + 1) := by rw [Nat.add_assoc]
      rw [h3, pow_succ]
      nlinarith
  have hpos : 0 < ε / 2 / (e N1 + 1) := by
    have := he N1
    positivity
  obtain ⟨K, hK⟩ := exists_pow_lt_of_lt_one hpos hρ1
  refine ⟨N1 + K, fun n hn => ?_⟩
  obtain ⟨k, rfl⟩ : ∃ k, n = N1 + k := ⟨n - N1, by omega⟩
  have hk : K ≤ k := by omega
  have hpow : ρ ^ k ≤ ρ ^ K := pow_le_pow_of_le_one hρ0 hρ1.le hk
  have he1 : 0 < e N1 + 1 := by have := he N1; linarith
  have hlt : ρ ^ K * (e N1 + 1) < ε / 2 := by
    rw [lt_div_iff₀ he1] at hK
    exact hK
  have hle : ρ ^ k * e N1 ≤ ρ ^ K * (e N1 + 1) := by
    have h0 : 0 ≤ ρ ^ K := pow_nonneg hρ0 K
    have := he N1
    nlinarith
  rw [abs_of_nonneg (he _)]
  have := claim k
  linarith

/-- A positive definite quadratic form is nonnegative. -/
theorem quadForm_nonneg (p q r : ℚ) (hp : 0 < p) (hdet : q ^ 2 < p * r) (x y : ℚ) :
    0 ≤ quadForm p q r x y := by
  have h1 : p * quadForm p q r x y = (p * x + q * y) ^ 2 + (p * r - q ^ 2) * y ^ 2 := by
    unfold quadForm; ring
  have h2 : 0 ≤ p * quadForm p q r x y := by
    rw [h1]
    have : 0 ≤ (p * r - q ^ 2) * y ^ 2 := mul_nonneg (by linarith) (sq_nonneg y)
    have := sq_nonneg (p * x + q * y)
    linarith
  exact nonneg_of_mul_nonneg_right h2 hp

/-- The value of a quadratic form on a sum is bounded by a weighted sum of its values. -/
theorem quadForm_add_le (p q r : ℚ) (hp : 0 < p) (hdet : q ^ 2 < p * r) (δ : ℚ) (hδ : 0 < δ)
    (x y z w : ℚ) :
    quadForm p q r (x + z) (y + w) ≤
      (1 + δ) * quadForm p q r x y + (1 + 1 / δ) * quadForm p q r z w := by
  have h := quadForm_nonneg p q r hp hdet (δ * x - z) (δ * y - w)
  have hid : δ * ((1 + δ) * quadForm p q r x y + (1 + 1 / δ) * quadForm p q r z w
      - quadForm p q r (x + z) (y + w)) = quadForm p q r (δ * x - z) (δ * y - w) := by
    unfold quadForm
    field_simp
    ring
  have h2 : 0 ≤ (1 + δ) * quadForm p q r x y + (1 + 1 / δ) * quadForm p q r z w
      - quadForm p q r (x + z) (y + w) := by
    apply nonneg_of_mul_nonneg_right _ hδ
    rw [hid]
    exact h
  linarith

/-- A quadratic form is bounded by a multiple of `x^2 + y^2`. -/
theorem quadForm_le (p q r x y : ℚ) :
    quadForm p q r x y ≤ (|p| + |r| + |q|) * (x ^ 2 + y ^ 2) := by
  unfold quadForm
  have h1 : 2 * q * x * y ≤ |q| * (x ^ 2 + y ^ 2) := by
    rcases abs_cases q with ⟨hq, _⟩ | ⟨hq, _⟩
    · rw [hq]; nlinarith [sq_nonneg (x - y)]
    · rw [hq]; nlinarith [sq_nonneg (x + y)]
  have h2 : p * x ^ 2 ≤ |p| * x ^ 2 := mul_le_mul_of_nonneg_right (le_abs_self p) (sq_nonneg x)
  have h3 : r * y ^ 2 ≤ |r| * y ^ 2 := mul_le_mul_of_nonneg_right (le_abs_self r) (sq_nonneg y)
  have h4 : 0 ≤ |p| * y ^ 2 := mul_nonneg (abs_nonneg p) (sq_nonneg y)
  have h5 : 0 ≤ |r| * x ^ 2 := mul_nonneg (abs_nonneg r) (sq_nonneg x)
  nlinarith

/-- The square of a sequence converging to 0, times a constant, converges to 0. -/
theorem TendsToZero.const_mul_sq {u : ℕ → ℚ} (K : ℚ) (hu : TendsToZero u) :
    TendsToZero (fun n => K * u n ^ 2) := by
  have hmin : TendsToZero (fun n => u n ^ 2) := by
    intro ε hε
    obtain ⟨N, hN⟩ := hu (min 1 ε) (lt_min one_pos hε)
    refine ⟨N, fun n hn => ?_⟩
    have h := hN n hn
    have h1 : |u n| < 1 := lt_of_lt_of_le h (min_le_left _ _)
    have h2 : |u n| < ε := lt_of_lt_of_le h (min_le_right _ _)
    rw [abs_pow]
    have h0 := abs_nonneg (u n)
    nlinarith
  exact hmin.const_mul K

/-- A planar linear recursion driven by a sequence converging to 0 converges to 0 when a
positive definite quadratic form decreases strictly along the undriven recursion. -/
theorem tendsToZero_of_lyapunov (x y u : ℕ → ℚ) (a b c d β1 β2 p q r ε0 : ℚ)
    (hx : ∀ n, x (n + 1) = a * x n + b * y n + β1 * u n)
    (hy : ∀ n, y (n + 1) = c * x n + d * y n + β2 * u n)
    (hp : 0 < p) (hdet : q ^ 2 < p * r) (hε : 0 < ε0)
    (hV : ∀ X Y, quadForm p q r (a * X + b * Y) (c * X + d * Y) + ε0 * (X ^ 2 + Y ^ 2)
      ≤ quadForm p q r X Y)
    (hu : TendsToZero u) : TendsToZero x ∧ TendsToZero y := by
  have hnn := quadForm_nonneg p q r hp hdet
  have hr : 0 < r := by
    by_contra hr
    have : p * r ≤ 0 := mul_nonpos_of_nonneg_of_nonpos hp.le (not_lt.1 hr)
    nlinarith [sq_nonneg q]
  have hΛ : 0 < |p| + |r| + |q| := by
    have := abs_pos.2 hp.ne'
    positivity
  have hεΛ : ε0 ≤ |p| + |r| + |q| := by
    have h1 := hV 1 0
    have h2 := hnn (a * 1 + b * 0) (c * 1 + d * 0)
    have h3 : quadForm p q r 1 0 = p := by unfold quadForm; ring
    have h4 := le_abs_self p
    have h5 := abs_nonneg r
    have h6 := abs_nonneg q
    rw [h3] at h1
    nlinarith
  have hθ : 0 < ε0 / (|p| + |r| + |q|) := div_pos hε hΛ
  have hθ1 : ε0 / (|p| + |r| + |q|) ≤ 1 := (div_le_one hΛ).2 hεΛ
  have hθΛ : ε0 / (|p| + |r| + |q|) * (|p| + |r| + |q|) = ε0 := div_mul_cancel₀ _ hΛ.ne'
  -- the undriven recursion contracts the quadratic form
  have hcontr : ∀ X Y, quadForm p q r (a * X + b * Y) (c * X + d * Y)
      ≤ (1 - ε0 / (|p| + |r| + |q|)) * quadForm p q r X Y := by
    intro X Y
    have h1 := hV X Y
    have h2 := quadForm_le p q r X Y
    have h3 : ε0 / (|p| + |r| + |q|) * quadForm p q r X Y
        ≤ ε0 / (|p| + |r| + |q|) * ((|p| + |r| + |q|) * (X ^ 2 + Y ^ 2)) :=
      mul_le_mul_of_nonneg_left h2 hθ.le
    rw [← mul_assoc, hθΛ] at h3
    linarith
  have hδ : 0 < ε0 / (|p| + |r| + |q|) / 2 := by positivity
  have he : TendsToZero (fun n => quadForm p q r (x n) (y n)) := by
    apply tendsToZero_of_contraction (fun n => quadForm p q r (x n) (y n))
      (fun n => (1 + 1 / (ε0 / (|p| + |r| + |q|) / 2)) * quadForm p q r β1 β2 * u n ^ 2)
      (1 - ε0 / (|p| + |r| + |q|) / 2) (by linarith) (by linarith)
      (fun n => hnn _ _)
    · intro n
      have h1 := quadForm_add_le p q r hp hdet _ hδ (a * x n + b * y n) (c * x n + d * y n)
        (β1 * u n) (β2 * u n)
      have h2 := hcontr (x n) (y n)
      have h3 : quadForm p q r (β1 * u n) (β2 * u n) = quadForm p q r β1 β2 * u n ^ 2 := by
        unfold quadForm; ring
      have h4 := hnn (x n) (y n)
      have h5 : (1 + ε0 / (|p| + |r| + |q|) / 2) *
          quadForm p q r (a * x n + b * y n) (c * x n + d * y n)
          ≤ (1 + ε0 / (|p| + |r| + |q|) / 2) *
            ((1 - ε0 / (|p| + |r| + |q|)) * quadForm p q r (x n) (y n)) :=
        mul_le_mul_of_nonneg_left h2 (by linarith)
      have h6 : (1 + ε0 / (|p| + |r| + |q|) / 2) *
            ((1 - ε0 / (|p| + |r| + |q|)) * quadForm p q r (x n) (y n))
          ≤ (1 - ε0 / (|p| + |r| + |q|) / 2) * quadForm p q r (x n) (y n) := by
        have : 0 ≤ (ε0 / (|p| + |r| + |q|)) ^ 2 / 2 * quadForm p q r (x n) (y n) :=
          mul_nonneg (by positivity) h4
        nlinarith
      show quadForm p q r (x (n + 1)) (y (n + 1))
        ≤ (1 - ε0 / (|p| + |r| + |q|) / 2) * quadForm p q r (x n) (y n)
          + (1 + 1 / (ε0 / (|p| + |r| + |q|) / 2)) * quadForm p q r β1 β2 * u n ^ 2
      rw [h3] at h1
      rw [hx n, hy n, mul_assoc]
      linarith
    · exact hu.const_mul_sq _
  have hdetpos : 0 < p * r - q ^ 2 := by linarith
  constructor
  · intro ε hε'
    obtain ⟨N, hN⟩ := he ((p * r - q ^ 2) * ε ^ 2 / r) (by positivity)
    refine ⟨N, fun n hn => ?_⟩
    have h1 := (abs_lt.1 (hN n hn)).2
    rw [lt_div_iff₀ hr] at h1
    have h2 : quadForm p q r (x n) (y n) * r - (p * r - q ^ 2) * x n ^ 2
        = (q * x n + r * y n) ^ 2 := by unfold quadForm; ring
    have h3 := sq_nonneg (q * x n + r * y n)
    have h4 : x n ^ 2 < ε ^ 2 := by
      have : (p * r - q ^ 2) * x n ^ 2 < (p * r - q ^ 2) * ε ^ 2 := by linarith
      exact lt_of_mul_lt_mul_left this hdetpos.le
    exact abs_lt_of_sq_lt_sq h4 hε'.le
  · intro ε hε'
    obtain ⟨N, hN⟩ := he ((p * r - q ^ 2) * ε ^ 2 / p) (by positivity)
    refine ⟨N, fun n hn => ?_⟩
    have h1 := (abs_lt.1 (hN n hn)).2
    rw [lt_div_iff₀ hp] at h1
    have h2 : quadForm p q r (x n) (y n) * p - (p * r - q ^ 2) * y n ^ 2
        = (p * x n + q * y n) ^ 2 := by unfold quadForm; ring
    have h3 := sq_nonneg (p * x n + q * y n)
    have h4 : y n ^ 2 < ε ^ 2 := by
      have : (p * r - q ^ 2) * y n ^ 2 < (p * r - q ^ 2) * ε ^ 2 := by linarith
      exact lt_of_mul_lt_mul_left this hdetpos.le
    exact abs_lt_of_sq_lt_sq h4 hε'.le

/-- Inside the stability triangle `(1 + a2)^2 - a1^2` is positive. -/
theorem Stable.gap_pos {a1 a2 : ℚ} (h : Stable a1 a2) : 0 < (1 + a2) ^ 2 - a1 ^ 2 := by
  obtain ⟨_, h2, h3⟩ := h
  have : (1 + a2) ^ 2 - a1 ^ 2 = (1 + a2 - a1) * (1 + a2 + a1) := by ring
  rw [this]
  exact mul_pos (by linarith) (by linarith)

/-- Along an infinite input sequence `FILTER_2nd.update` never changes `num` or `den`. -/
theorem stateAt_FILTER_2nd_coeffs (f : FILTER_2nd) (u : ℕ → ℚ) (n : ℕ) :
    (stateAt FILTER_2nd.update f u n).num = f.num ∧
      (stateAt FILTER_2nd.update f u n).den = f.den := by
  induction n with
  | zero => exact ⟨rfl, rfl⟩
  | succ n ih => exact ih

/-- Along an infinite input sequence `FILTER_4th.update` never changes `num`, `den` or
`gain`. -/
theorem stateAt_FILTER_4th_coeffs (f : FILTER_4th) (u : ℕ → ℚ) (n : ℕ) :
    (stateAt FILTER_4th.update f u n).num = f.num ∧
      (stateAt FILTER_4th.update f u n).den = f.den ∧
      (stateAt FILTER_4th.update f u n).gain = f.gain := by
  induction n with
  | zero => exact ⟨rfl, rfl, rfl⟩
  | succ n ih => exact ih

/-- A `FILTER_2nd` with `den[0] = 1` and `(den[1], den[2])` inside the stability triangle,
fed an input sequence converging to 0 from any delay states: both delay states and the
outputs converge to 0. -/
theorem FILTER_2nd_tendsToZero (f : FILTER_2nd) (u : ℕ → ℚ) (hd : f.den 0 = 1)
    (hst : Stable (f.den 1) (f.den 2)) (hu : TendsToZero u) :
    (∀ i, TendsToZero (fun n => (stateAt FILTER_2nd.update f u n).states i)) ∧
      TendsToZero (outAt FILTER_2nd.update f u) := by
  have hgap := hst.gap_pos
  obtain ⟨h1, h2, h3⟩ := hst
  have hx : ∀ n, (stateAt FILTER_2nd.update f u (n + 1)).states 0
      = -f.den 1 * (stateAt FILTER_2nd.update f u n).states 0
        + -f.den 2 * (stateAt FILTER_2nd.update f u n).states 1 + 1 * u n := by
    intro n
    obtain ⟨_, hden⟩ := stateAt_FILTER_2nd_coeffs f u n
    simp only [stateAt, FILTER_2nd.update, hden, hd, div_one, Function.update_same]
    ring
  have hy : ∀ n, (stateAt FILTER_2nd.update f u (n + 1)).states 1
      = 1 * (stateAt FILTER_2nd.update f u n).states 0
        + 0 * (stateAt FILTER_2nd.update f u n).states 1 + 0 * u n := by
    intro n
    simp [stateAt, FILTER_2nd.update]
  have hconv := tendsToZero_of_lyapunov
    (fun n => (stateAt FILTER_2nd.update f u n).states 0)
    (fun n => (stateAt FILTER_2nd.update f u n).states 1) u
    (-f.den 1) (-f.den 2) 1 0 1 0
    (2 * (1 + f.den 2)) (2 * f.den 1 * f.den 2)
    ((1 + f.den 2) * (1 + f.den 2 ^ 2) - f.den 1 ^ 2 * (1 - f.den 2))
    ((1 - f.den 2) * ((1 + f.den 2) ^ 2 - f.den 1 ^ 2))
    hx hy (by linarith)
    (by
      have hid : 2 * (1 + f.den 2) *
          ((1 + f.den 2) * (1 + f.den 2 ^ 2) - f.den 1 ^ 2 * (1 - f.den 2))
          - (2 * f.den 1 * f.den 2) ^ 2
          = 2 * (1 + f.den 2 ^ 2) * ((1 + f.den 2) ^ 2 - f.den 1 ^ 2) := by ring
      have hpos : 0 < 2 * (1 + f.den 2 ^ 2) * ((1 + f.den 2) ^ 2 - f.den 1 ^ 2) :=
        mul_pos (by positivity) hgap
      linarith)
    (mul_pos (by linarith) hgap)
    (by
      intro X Y
      apply le_of_eq
      unfold quadForm
      ring)
    hu
  obtain ⟨c0, c1⟩ := hconv
  refine ⟨fun i => ?_, ?_⟩
  · fin_cases i
    · exact c0
    · exact c1
  · have hsum := ((c0.shift.const_mul (f.num 0)).add (c0.const_mul (f.num 1))).add
      (c1.const_mul (f.num 2))
    refine hsum.congr (fun n => ?_)
    obtain ⟨hnum, hden⟩ := stateAt_FILTER_2nd_coeffs f u n
    simp only [outAt, stateAt, FILTER_2nd.update, hnum, hden, hd, div_one,
      Function.update_same]

/-- The state recursion of one transposed-form stage with `(a1, a2)` inside the stability
triangle, driven by a sequence converging to 0, converges to 0. -/
theorem transposed_tendsToZero (x y v : ℕ → ℚ) (a1 a2 β1 β2 : ℚ) (hst : Stable a1 a2)
    (hx : ∀ n, x (n + 1) = -a1 * x n + 1 * y n + β1 * v n)
    (hy : ∀ n, y (n + 1) = -a2 * x n + 0 * y n + β2 * v n)
    (hv : TendsToZero v) : TendsToZero x ∧ TendsToZero y := by
  have hgap := hst.gap_pos
  obtain ⟨h1, h2, h3⟩ := hst
  exact tendsToZero_of_lyapunov x y v (-a1) 1 (-a2) 0 β1 β2
    ((1 + a2) * (1 + a2 ^ 2)) (-a1 * (1 + a2 ^ 2)) (2 * (1 + a2) - a1 ^ 2 * (1 - a2))
    ((1 - a2) * ((1 + a2) ^ 2 - a1 ^ 2))
    hx hy (mul_pos (by linarith) (by positivity))
    (by
      have hid : (1 + a2) * (1 + a2 ^ 2) * (2 * (1 + a2) - a1 ^ 2 * (1 - a2))
          - (-a1 * (1 + a2 ^ 2)) ^ 2 = 2 * (1 + a2 ^ 2) * ((1 + a2) ^ 2 - a1 ^ 2) := by ring
      have hpos : 0 < 2 * (1 + a2 ^ 2) * ((1 + a2) ^ 2 - a1 ^ 2) :=
        mul_pos (by positivity) hgap
      linarith)
    (mul_pos (by linarith) hgap)
    (by
      intro X Y
      apply le_of_eq
      unfold quadForm
      ring)
    hv

/-- A `FILTER_4th` whose two sections `(den[1], den[2])` and `(den[4], den[5])` are inside
the stability triangle, fed an input sequence converging to 0 from any delay states: the
four delay states and the outputs converge to 0. -/
theorem FILTER_4th_tendsToZero (f : FILTER_4th) (u : ℕ → ℚ)
    (hs1 : Stable (f.den 1) (f.den 2)) (hs2 : Stable (f.den 4) (f.den 5))
    (hu : TendsToZero u) :
    (∀ i, TendsToZero (fun n => (stateAt FILTER_4th.update f u n).states i)) ∧
      TendsToZero (outAt FILTER_4th.update f u) := by
  have hc := stateAt_FILTER_4th_coeffs f u
  obtain ⟨c0, c1⟩ := transposed_tendsToZero
    (fun n => (stateAt FILTER_4th.update f u n).states 0)
    (fun n => (stateAt FILTER_4th.update f u n).states 1) u
    (f.den 1) (f.den 2) (f.num 1 - f.den 1 * f.num 0) (f.num 2 - f.den 2 * f.num 0) hs1
    (by
      intro n
      obtain ⟨hnum, hden, _⟩ := hc n
      simp [stateAt, FILTER_4th.update, hnum, hden]
      ring)
    (by
      intro n
      obtain ⟨hnum, hden, _⟩ := hc n
      simp [stateAt, FILTER_4th.update, hnum, hden]
      ring)
    hu
  have hv : TendsToZero
      (fun n => f.num 0 * u n + (stateAt FILTER_4th.update f u n).states 0) :=
    (hu.const_mul (f.num 0)).add c0
  obtain ⟨c2, c3⟩ := transposed_tendsToZero
    (fun n => (stateAt FILTER_4th.update f u n).states 2)
    (fun n => (stateAt FILTER_4th.update f u n).states 3)
    (fun n => f.num 0 * u n + (stateAt FILTER_4th.update f u n).states 0)
    (f.den 4) (f.den 5) (f.num 4 - f.den 4 * f.num 3) (f.num 5 - f.den 5 * f.num 3) hs2
    (by
      intro n
      obtain ⟨hnum, hden, _⟩ := hc n
      simp [stateAt, FILTER_4th.update, hnum, hden]
      ring)
    (by
      intro n
      obtain ⟨hnum, hden, _⟩ := hc n
      simp [stateAt, FILTER_4th.update, hnum, hden]
      ring)
    hv
  refine ⟨fun i => ?_, ?_⟩
  · fin_cases i
    · exact c0
    · exact c1
    · exact c2
    · exact c3
  · have hout := ((hv.const_mul (f.num 3)).add c2).const_mul f.gain
    refine hout.congr (fun n => ?_)
    obtain ⟨hnum, _, hgain⟩ := hc n
    simp [outAt, stateAt, FILTER_4th.update, hnum, hgain]

/-- A pipeline that is not bypassed runs, along an infinite input sequence, as its three
stages one after the other, each on the previous stage's output sequence. -/
theorem stateAt_update_valid (u : ℕ → ℚ) (p : EMGFilters) (hb : p.m_bypassEnabled = false)
    (n : ℕ) :
    stateAt EMGFilters.update p u n =
      { p with
        AHF := stageStateAt p.m_notchFilterEnabled FILTER_4th.update p.AHF u n
        LPF := stageStateAt p.m_lowpassFilterEnabled FILTER_2nd.update p.LPF
          (stageOutAt p.m_notchFilterEnabled FILTER_4th.update p.AHF u) n
        HPF := stageStateAt p.m_highpassFilterEnabled FILTER_2nd.update p.HPF
          (stageOutAt p.m_lowpassFilterEnabled FILTER_2nd.update p.LPF
            (stageOutAt p.m_notchFilterEnabled FILTER_4th.update p.AHF u)) n } := by
  induction n with
  | zero =>
    obtain ⟨sf, nf, bp, en, el, eh, L, H, A⟩ := p
    cases en <;> cases el <;> cases eh <;> simp [stateAt, stageStateAt]
  | succ n ih =>
    rw [stateAt, ih]
    obtain ⟨sf, nf, bp, en, el, eh, L, H, A⟩ := p
    simp only at hb
    subst hb
    cases en <;> cases el <;> cases eh <;>
      simp [EMGFilters.update, stageStateAt, stageOutAt, stateAt, outAt]

/-- The outputs of a pipeline that is not bypassed, along an infinite input sequence, are
those of its three stages one after the other. -/
theorem outAt_update_valid (u : ℕ → ℚ) (p : EMGFilters) (hb : p.m_bypassEnabled = false)
    (n : ℕ) :
    outAt EMGFilters.update p u n =
      stageOutAt p.m_highpassFilterEnabled FILTER_2nd.update p.HPF
        (stageOutAt p.m_lowpassFilterEnabled FILTER_2nd.update p.LPF
          (stageOutAt p.m_notchFilterEnabled FILTER_4th.update p.AHF u)) n := by
  rw [outAt, stateAt_update_valid u p hb n]
  obtain ⟨sf, nf, bp, en, el, eh, L, H, A⟩ := p
  simp only at hb
  subst hb
  cases en <;> cases el <;> cases eh <;>
    simp [EMGFilters.update, stageStateAt, stageOutAt, stateAt, outAt]

/-- One second-order stage of the pipeline on an input sequence converging to 0: when the
stage is disabled its delay states are assumed zero; delay states and stage outputs
converge to 0. -/
theorem stage_2nd_tendsToZero (en : Bool) (f : FILTER_2nd) (u : ℕ → ℚ) (hd : f.den 0 = 1)
    (hst : Stable (f.den 1) (f.den 2)) (hz : en = false → ∀ i, f.states i = 0)
    (hu : TendsToZero u) :
    (∀ i, TendsToZero (fun n => (stageStateAt en FILTER_2nd.update f u n).states i)) ∧
      TendsToZero (stageOutAt en FILTER_2nd.update f u) := by
  cases en
  · refine ⟨fun i => TendsToZero.zero.congr (fun n => ?_), ?_⟩
    · simp [stageStateAt, hz rfl i]
    · simpa [stageOutAt] using hu
  · simpa [stageStateAt, stageOutAt] using FILTER_2nd_tendsToZero f u hd hst hu

/-- The notch stage of the pipeline on an input sequence converging to 0: when the stage
is disabled its delay states are assumed zero; delay states and stage outputs converge
to 0. -/
theorem stage_4th_tendsToZero (en : Bool) (f : FILTER_4th) (u : ℕ → ℚ)
    (hs1 : Stable (f.den 1) (f.den 2)) (hs2 : Stable (f.den 4) (f.den 5))
    (hz : en = false → ∀ i, f.states i = 0) (hu : TendsToZero u) :
    (∀ i, TendsToZero (fun n => (stageStateAt en FILTER_4th.update f u n).states i)) ∧
      TendsToZero (stageOutAt en FILTER_4th.update f u) := by
  cases en
  · refine ⟨fun i => TendsToZero.zero.congr (fun n => ?_), ?_⟩
    · simp [stageStateAt, hz rfl i]
    · simpa [stageOutAt] using hu
  · simpa [stageStateAt, stageOutAt] using FILTER_4th_tendsToZero f u hs1 hs2 hu

/-- The last entry of a six-element row. -/
theorem vec6_val_five (a b c d e f : ℚ) : (![a, b, c, d, e, f] : Fin 6 → ℚ) 5 = f := rfl

/-- Every denominator row that `init` can install for a supported pair lies inside the
stability triangle, section by section. -/
theorem init_tables_stable (f2 : FILTER_2nd) (f4 : FILTER_4th) (t : FILTER_TYPE)
    (sf nf : Int) (h : Supported sf nf) :
    Stable ((f2.init t sf).den 1) ((f2.init t sf).den 2) ∧
      Stable ((f4.init sf nf).den 1) ((f4.init sf nf).den 2) ∧
      Stable ((f4.init sf nf).den 4) ((f4.init sf nf).den 5) := by
  obtain ⟨hs, hn⟩ := h
  rcases hs with hs | hs | hs <;> rcases hn with hn | hn <;> subst hs <;> subst hn <;>
    cases t <;>
    norm_num [Stable, FILTER_2nd.init, FILTER_4th.init, freqIdx, SAMPLE_FREQ_500HZ,
      SAMPLE_FREQ_1000HZ, SAMPLE_FREQ_2000HZ, NOTCH_FREQ_50HZ, NOTCH_FREQ_60HZ,
      lpf_denominator_coef, hpf_denominator_coef, ahf_denominator_coef_50Hz,
      ahf_denominator_coef_60Hz, vec6_val_five]

/-- A pipeline that is not bypassed, whose installed denominators are inside the stability
triangle with `den[0] = 1` and whose disabled stages have zero delay states, fed zero
samples for ever: all eight delay states and the outputs converge to 0. -/
theorem pipeline_tendsToZero (s : EMGFilters) (hb : s.m_bypassEnabled = false)
    (hA1 : Stable (s.AHF.den 1) (s.AHF.den 2)) (hA2 : Stable (s.AHF.den 4) (s.AHF.den 5))
    (hL0 : s.LPF.den 0 = 1) (hL : Stable (s.LPF.den 1) (s.LPF.den 2))
    (hH0 : s.HPF.den 0 = 1) (hH : Stable (s.HPF.den 1) (s.HPF.den 2))
    (hzA : s.m_notchFilterEnabled = false → ∀ i, s.AHF.states i = 0)
    (hzL : s.m_lowpassFilterEnabled = false → ∀ i, s.LPF.states i = 0)
    (hzH : s.m_highpassFilterEnabled = false → ∀ i, s.HPF.states i = 0) :
    (∀ i, TendsToZero
        (fun n => (stateAt EMGFilters.update s (fun _ => 0) n).AHF.states i)) ∧
      (∀ i, TendsToZero
        (fun n => (stateAt EMGFilters.update s (fun _ => 0) n).LPF.states i)) ∧
      (∀ i, TendsToZero
        (fun n => (stateAt EMGFilters.update s (fun _ => 0) n).HPF.states i)) ∧
      TendsToZero (outAt EMGFilters.update s (fun _ => 0)) := by
  obtain ⟨a1, a2⟩ := stage_4th_tendsToZero s.m_notchFilterEnabled s.AHF (fun _ => 0)
    hA1 hA2 hzA TendsToZero.zero
  obtain ⟨l1, l2⟩ := stage_2nd_tendsToZero s.m_lowpassFilterEnabled s.LPF _ hL0 hL hzL a2
  obtain ⟨h1, h2⟩ := stage_2nd_tendsToZero s.m_highpassFilterEnabled s.HPF _ hH0 hH hzH l2
  refine ⟨fun i => (a1 i).congr (fun n => ?_), fun i => (l1 i).congr (fun n => ?_),
    fun i => (h1 i).congr (fun n => ?_), h2.congr (fun n => ?_)⟩
  · rw [stateAt_update_valid _ s hb n]
  · rw [stateAt_update_valid _ s hb n]
  · rw [stateAt_update_valid _ s hb n]
  · rw [outAt_update_valid _ s hb n]

/-- A stage that is not enabled keeps its filter object over a whole run. -/
theorem stageRun_disabled {σ : Type} (step : σ → ℚ → ℚ × σ) (f : σ) (xs : List ℚ) :
    (stageRun false step f xs).2 = f := rfl

/-- One second-order stage never changes `den` over a whole run. -/
theorem stageRun_2nd_den (en : Bool) (f : FILTER_2nd) (xs : List ℚ) :
    (stageRun en FILTER_2nd.update f xs).2.den = f.den := by
  cases en
  · rfl
  · exact (run_FILTER_2nd_coeffs xs f).2

/-- The notch stage never changes `den` over a whole run. -/
theorem stageRun_4th_den (en : Bool) (f : FILTER_4th) (xs : List ℚ) :
    (stageRun en FILTER_4th.update f xs).2.den = f.den := by
  cases en
  · rfl
  · exact (run_FILTER_4th_coeffs xs f).2.1

/-- The final object of a run on a sequence extended by one sample. -/
theorem run_append_singleton {σ : Type} (step : σ → ℚ → ℚ × σ) (xs : List ℚ) (s : σ) (x : ℚ) :
    (run step s (xs ++ [x])).2 = (step (run step s xs).2 x).2 := by
  induction xs generalizing s with
  | nil => rfl
  | cons y ys ih => simp only [List.cons_append, run]; exact ih _

/-- The object after `n` zero samples of the infinite zero sequence is the final object of
a run on the list of `n` zeros. -/
theorem stateAt_zero_eq_run {σ : Type} (step : σ → ℚ → ℚ × σ) (s : σ) (n : ℕ) :
    stateAt step s (fun _ => 0) n = (run step s (List.replicate n 0)).2 := by
  induction n with
  | zero => rfl
  | succ n ih =>
    rw [stateAt, ih, List.replicate_succ', run_append_singleton]

/-- C11: in exact arithmetic, for every supported pair, every setting of the enable flags
and every pipeline object reached from `init` by a finite input sequence, feeding zero
samples for ever makes each delay state of the three sub-filters and the value returned
by `update` converge to 0.  Every section is asymptotically stable: a `FILTER_2nd`
(low-pass or high-pass) or a `FILTER_4th` carrying the coefficients `init` installs, started
from any delay states whatever, has all its delay states converge to 0 on zero input. -/
theorem C11_zero_input_converges (p : EMGFilters) (sampleFreq notchFreq : Int)
    (en el eh : Bool) (xs : List ℚ) (g2 : FILTER_2nd) (g4 : FILTER_4th) (ftype : FILTER_TYPE)
    (h : Supported sampleFreq notchFreq) :
    (∀ i, TendsToZero (fun n => (stateAt EMGFilters.update
        (run EMGFilters.update (p.init sampleFreq notchFreq en el eh) xs).2
        (fun _ => 0) n).AHF.states i)) ∧
      (∀ i, TendsToZero (fun n => (stateAt EMGFilters.update
        (run EMGFilters.update (p.init sampleFreq notchFreq en el eh) xs).2
        (fun _ => 0) n).LPF.states i)) ∧
      (∀ i, TendsToZero (fun n => (stateAt EMGFilters.update
        (run EMGFilters.update (p.init sampleFreq notchFreq en el eh) xs).2
        (fun _ => 0) n).HPF.states i)) ∧
      TendsToZero (outAt EMGFilters.update
        (run EMGFilters.update (p.init sampleFreq notchFreq en el eh) xs).2 (fun _ => 0)) ∧
      (∀ n, stateAt EMGFilters.update
          (run EMGFilters.update (p.init sampleFreq notchFreq en el eh) xs).2 (fun _ => 0) n
        = (run EMGFilters.update
            (run EMGFilters.update (p.init sampleFreq notchFreq en el eh) xs).2
            (List.replicate n 0)).2) ∧
      (∀ (st : Fin 2 → ℚ) i, TendsToZero (fun n => (stateAt FILTER_2nd.update
        { g2.init ftype sampleFreq with states := st } (fun _ => 0) n).states i)) ∧
      (∀ (st : Fin 4 → ℚ) i, TendsToZero (fun n => (stateAt FILTER_4th.update
        { g4.init sampleFreq notchFreq with states := st } (fun _ => 0) n).states i)) := by
  have hb := (init_bypass_false_iff p sampleFreq notchFreq en el eh).2 h
  have hs := congrArg Prod.snd (run_update_valid xs _ hb)
  simp only [init_notchFlag, init_lowpassFlag, init_highpassFlag, init_LPF, init_HPF,
    init_AHF] at hs
  obtain ⟨hLst, hA1, hA2⟩ := init_tables_stable p.LPF p.AHF FILTER_TYPE.FILTER_TYPE_LOWPASS
    sampleFreq notchFreq h
  obtain ⟨hHst, _, _⟩ := init_tables_stable p.HPF p.AHF FILTER_TYPE.FILTER_TYPE_HIGHPASS
    sampleFreq notchFreq h
  have hL0 := FILTER_2nd_init_den0 p.LPF FILTER_TYPE.FILTER_TYPE_LOWPASS sampleFreq h.1
  have hH0 := FILTER_2nd_init_den0 p.HPF FILTER_TYPE.FILTER_TYPE_HIGHPASS sampleFreq h.1
  have main := pipeline_tendsToZero
    (run EMGFilters.update (p.init sampleFreq notchFreq en el eh) xs).2
    (by rw [hs]; exact hb)
    (by rw [hs]; simp only [stageRun_4th_den]; exact hA1)
    (by rw [hs]; simp only [stageRun_4th_den]; exact hA2)
    (by rw [hs]; simp only [stageRun_2nd_den]; exact hL0)
    (by rw [hs]; simp only [stageRun_2nd_den]; exact hLst)
    (by rw [hs]; simp only [stageRun_2nd_den]; exact hH0)
    (by rw [hs]; simp only [stageRun_2nd_den]; exact hHst)
    (by
      rw [hs]
      intro he i
      simp only [init_notchFlag] at he
      subst he
      simp only [stageRun_disabled]
      rw [FILTER_4th_init_states])
    (by
      rw [hs]
      intro he i
      simp only [init_lowpassFlag] at he
      subst he
      simp only [stageRun_disabled]
      rw [FILTER_2nd_init_states])
    (by
      rw [hs]
      intro he i
      simp only [init_highpassFlag] at he
      subst he
      simp only [stageRun_disabled]
      rw [FILTER_2nd_init_states])
  obtain ⟨m1, m2, m3, m4⟩ := main
  obtain ⟨hg2, hg41, hg42⟩ := init_tables_stable g2 g4 ftype sampleFreq notchFreq h
  refine ⟨m1, m2, m3, m4, fun n => stateAt_zero_eq_run _ _ n, fun st i => ?_, fun st i => ?_⟩
  · exact (FILTER_2nd_tendsToZero { g2.init ftype sampleFreq with states := st } (fun _ => 0)
      (FILTER_2nd_init_den0 g2 ftype sampleFreq h.1) hg2 TendsToZero.zero).1 i
  · exact (FILTER_4th_tendsToZero { g4.init sampleFreq notchFreq with states := st }
      (fun _ => 0) hg41 hg42 TendsToZero.zero).1 i

/-- Witness of C11: the pipeline at 1000 Hz / 60 Hz with all stages enabled, after the
inputs 1 and 2. -/
theorem C11_zero_input_converges_witness :
    Supported 1000 60 ∧
      (∀ i, TendsToZero (fun n => (stateAt EMGFilters.update
        (run EMGFilters.update (zeroPipeline.init 1000 60 true true true) [1, 2]).2
        (fun _ => 0) n).AHF.states i)) ∧
      TendsToZero (outAt EMGFilters.update
        (run EMGFilters.update (zeroPipeline.init 1000 60 true true true) [1, 2]).2
        (fun _ => 0)) :=
  ⟨by decide,
    (C11_zero_input_converges zeroPipeline 1000 60 true true true [1, 2] sampleBiquad
      sampleNotch FILTER_TYPE.FILTER_TYPE_LOWPASS (by decide)).1,
    (C11_zero_input_converges zeroPipeline 1000 60 true true true [1, 2] sampleBiquad
      sampleNotch FILTER_TYPE.FILTER_TYPE_LOWPASS (by decide)).2.2.2.1⟩

end EMG
